import Mathlib

/-!
Shallow embedding of the Google Sheets sync proxy.

Source: `src/api/sync.js` (current handler variant) and, for the older
handler variant, `src/unnamed/part_000`.  External services (Google token
introspection, the OAuth token endpoint, the Vercel KV counter store and the
Drive/Sheets REST API) are modelled as oracles carried in a `World`
structure; the handler is a pure function from a world, a request and an
initial counter-store state to a response, a final store state and an
ordered trace of the external calls it performed.
-/

namespace SheetsSync

/-- JavaScript values as far as the handler inspects them: `null`/`undefined`
collapse to `jnull`; objects other than the specially modelled request
sub-objects do not occur in the handler's data paths. -/
inductive JVal where
  | jnull
  | jbool (b : Bool)
  | jnum (n : Int)
  | jstr (s : String)
  | jarr (xs : List JVal)
deriving Repr

mutual

/-- Structural equality of modelled JavaScript values.  `JSON.stringify` is
injective on this value space, so the source's
`JSON.stringify(a) !== JSON.stringify(b)` comparison is modelled as
structural disequality. -/
def jvalBeq : JVal → JVal → Bool
  | JVal.jnull, JVal.jnull => true
  | JVal.jbool a, JVal.jbool b => a == b
  | JVal.jnum a, JVal.jnum b => a == b
  | JVal.jstr a, JVal.jstr b => a == b
  | JVal.jarr a, JVal.jarr b => jvalListBeq a b
  | _, _ => false

/-- Elementwise equality of lists of modelled JavaScript values. -/
def jvalListBeq : List JVal → List JVal → Bool
  | [], [] => true
  | x :: xs, y :: ys => jvalBeq x y && jvalListBeq xs ys
  | _, _ => false

end

/-- JavaScript truthiness for the modelled values. -/
def truthy : JVal → Bool
  | JVal.jnull => false
  | JVal.jbool b => b
  | JVal.jnum n => n != 0
  | JVal.jstr s => s != ""
  | JVal.jarr _ => true

/-- The JavaScript `.length` of a value that is not null: some length on
arrays and strings, `undefined` (`none`) on booleans and numbers.  This
total convenience is used only where the source has already established
the value is an array (headers and rowData after their `Array.isArray`
checks); the general property access, which throws on null/undefined, is
`jsLengthAccess`. -/
def jlength : JVal → Option Int
  | JVal.jarr xs => some (xs.length : Int)
  | JVal.jstr s => some (s.length : Int)
  | _ => none

/-- The message of the TypeError thrown by `.length` access on null (the
V8 wording; `jnull` also models undefined, whose message differs only in
the word read - behaviourally irrelevant since neither contains the
literal "Header mismatch" the catches test). -/
def lengthOfNullMessage : String :=
  "Cannot read properties of null (reading 'length')"

/-- The JavaScript property access `v.length` with its error semantics:
throws a TypeError on null/undefined, yields `undefined` on booleans and
numbers, and the length on strings and arrays. -/
def jsLengthAccess : JVal → Except String (Option Int)
  | JVal.jnull => Except.error lengthOfNullMessage
  | JVal.jbool _ => Except.ok none
  | JVal.jnum _ => Except.ok none
  | JVal.jstr s => Except.ok (some (s.length : Int))
  | JVal.jarr xs => Except.ok (some (xs.length : Int))

/-- The source's `rowData.some(row => row.length !== headerCount)`
(src/api/sync.js line 82): scans the rows left to right, stops at the
first row whose `.length` differs, and propagates the TypeError thrown by
`.length` access on a null row reached before any mismatch. -/
def rowsSomeLengthNe (headerCount : Int) : List JVal → Except String Bool
  | [] => Except.ok false
  | r :: rs =>
    match jsLengthAccess r with
    | Except.error m => Except.error m
    | Except.ok l =>
      if l != some headerCount then Except.ok true
      else rowsSomeLengthNe headerCount rs

/-- The `Array.isArray` test. -/
def isArray : JVal → Bool
  | JVal.jarr _ => true
  | _ => false

/-- Truthiness of an optional string (absent or empty means falsy). -/
def optTruthy : Option String → Bool
  | none => false
  | some s => s != ""

/-- Character-list prefix test used by `strIncludes`. -/
def charsLeadOf : List Char → List Char → Bool
  | [], _ => true
  | _ :: _, [] => false
  | a :: as, b :: bs => a == b && charsLeadOf as bs

/-- Character-list contiguous-occurrence test used by `strIncludes`. -/
def charsOccurIn (needle : List Char) : List Char → Bool
  | [] => charsLeadOf needle []
  | c :: cs => charsLeadOf needle (c :: cs) || charsOccurIn needle cs

/-- The `String.prototype.includes` test: `strIncludes s needle` is true
when `needle` occurs contiguously inside `s`. -/
def strIncludes (s needle : String) : Bool :=
  charsOccurIn needle.data s.data

/-!
Column-letter conversion, `getColumnLetter` of `src/api/sync.js`
(lines 378-386).  The loop body decrements `colIndex`, emits
`(colIndex % 26) + 65` (after the decrement) and continues with
`floor(colIndex / 26)`.
-/

/-- Loop of getColumnLetter in src/api/sync.js: while (colIndex > 0)
with colIndex--, then col = chr(colIndex % 26 + 65) + col and
colIndex = floor(colIndex / 26). -/
def getColumnLetterGo (colIndex : Int) (col : String) : String :=
  if h : colIndex > 0 then
    getColumnLetterGo ((colIndex - 1) / 26)
      (String.mk [Char.ofNat (((colIndex - 1) % 26).toNat + 65)] ++ col)
  else
    col
termination_by colIndex.toNat
decreasing_by
  have h1 : (0 : Int) ≤ colIndex - 1 := by omega
  have h2 : (colIndex - 1) / 26 ≤ colIndex - 1 := Int.ediv_le_self 26 h1
  omega

/-- getColumnLetter of src/api/sync.js. -/
def getColumnLetter (colIndex : Int) : String :=
  getColumnLetterGo colIndex ""

/-- Loop of getColumnLetter in src/unnamed/part_000 (lines 353-361):
while (colIndex > 0) with temp = (colIndex - 1) % 26,
letter = chr(temp + 65) + letter, colIndex = floor((colIndex - temp - 1) / 26). -/
def getColumnLetterV2Go (colIndex : Int) (letter : String) : String :=
  if h : colIndex > 0 then
    getColumnLetterV2Go ((colIndex - ((colIndex - 1) % 26) - 1) / 26)
      (String.mk [Char.ofNat (((colIndex - 1) % 26).toNat + 65)] ++ letter)
  else
    letter
termination_by colIndex.toNat
decreasing_by
  have h1 : (0 : Int) ≤ colIndex - 1 := by omega
  have hd := Int.ediv_add_emod (colIndex - 1) 26
  have hq : (0 : Int) ≤ (colIndex - 1) / 26 := Int.ediv_nonneg h1 (by omega)
  have h2 : colIndex - ((colIndex - 1) % 26) - 1 = 26 * ((colIndex - 1) / 26) := by omega
  rw [h2]
  rw [Int.mul_ediv_cancel_left _ (by omega : (26 : Int) ≠ 0)]
  have h3 : (colIndex - 1) / 26 ≤ colIndex - 1 := Int.ediv_le_self 26 h1
  omega

/-- getColumnLetter of src/unnamed/part_000. -/
def getColumnLetterV2 (colIndex : Int) : String :=
  getColumnLetterV2Go colIndex ""

/-- Modelled from the spec (section 4.6): the bijective base-26 conversion as
the spec words it, for comparison with the source implementations -
repeatedly take (n-1) mod 26 as the next letter from the right, then
n = floor((n-1)/26), stopping when n reaches 0. -/
def specBijectiveBase26 (n : Nat) : String :=
  if h : n = 0 then ""
  else specBijectiveBase26 ((n - 1) / 26) ++ String.mk [Char.ofNat ((n - 1) % 26 + 65)]
termination_by n
decreasing_by
  have := Nat.div_le_self (n - 1) 26
  omega

/-- Numeric value of a column-letter string (bijective base-26 reading),
used as a left inverse to establish injectivity. -/
def letterStep (acc : Nat) (c : Char) : Nat := acc * 26 + (c.toNat - 64)

/-- Fold a column-letter string onto an accumulator. -/
def valFrom (init : Nat) (s : String) : Nat := s.data.foldl letterStep init

/-- Numeric value of a column-letter string. -/
def lettersToNat (s : String) : Nat := valFrom 0 s

/-!
Token validation, `validateAccessToken` of `src/api/sync.js` (lines 177-221).
The network fetch and its HTTP status are collapsed into an
`Option TokenInfo` oracle result: `none` models both a thrown fetch error
and a non-ok response, each of which makes the source return `null`.
-/

/-- Fields of the introspection response the source reads.  An absent field
is `none` (JavaScript `undefined`). -/
structure TokenInfo where
  aud : Option String
  exp : Option Int
  scope : Option String
  azp : Option String
  sub : String
deriving DecidableEq, Repr

/-- The two accepted scopes (strict validation list of the source). -/
def validScopes : List String :=
  ["https://www.googleapis.com/auth/spreadsheets",
   "https://www.googleapis.com/auth/drive.file"]

/-- Accumulating worker for `jsSplitSpace` (`acc` holds the current segment
reversed). -/
def splitSpacesGo (acc : List Char) : List Char → List String
  | [] => [String.mk acc.reverse]
  | c :: cs =>
    if c = ' ' then String.mk acc.reverse :: splitSpacesGo [] cs
    else splitSpacesGo (c :: acc) cs

/-- The JavaScript `s.split(' ')`: splits on every single space, keeping
empty segments (so the empty string yields one empty segment). -/
def jsSplitSpace (s : String) : List String := splitSpacesGo [] s.data

/-- validateAccessToken of src/api/sync.js, as a function of the configured
client id, the current unix time and the introspection oracle result.
Note the expiry check is a strict comparison: `tokenInfo.exp < now`
rejects, and an absent `exp` never rejects (in JavaScript
`undefined < now` is false). -/
def validateAccessToken (clientId : Option String) (now : Int)
    (fetchResult : Option TokenInfo) : Option TokenInfo :=
  match fetchResult with
  | none => none
  | some tokenInfo =>
    if optTruthy clientId && tokenInfo.aud != clientId then none
    else if (match tokenInfo.exp with
             | some e => decide (e < now)
             | none => false) then none
    else
      let hasValidScope :=
        match tokenInfo.scope with
        | some s => (jsSplitSpace s).any (fun sc => validScopes.contains sc)
        | none => false
      if !hasValidScope then none
      else if optTruthy tokenInfo.azp && optTruthy clientId
              && tokenInfo.azp != clientId then none
      else some tokenInfo

/-!
Rate limiting, `checkRateLimit` of `src/api/sync.js` (lines 252-271), over
the Vercel KV oracle.  Store operations that raise are modelled with
per-operation failure flags; a raised operation was still attempted (it
appears in the call trace) and any mutation already applied persists.
-/

/-- External calls the handler can make, in order of occurrence. -/
inductive Event where
  | introspectCall (token : String)
  | refreshCall (rt : String)
  | kvGet (key : String)
  | kvIncr (key : String)
  | kvExpire (key : String) (ttl : Int)
  | driveListCall
  | createCall
  | valuesGetCall (range : String)
  | appendCall (range : String)
deriving DecidableEq, Repr

/-- Ordered trace of external calls. -/
abbrev Trace := List Event

/-- Test for a Drive or Sheets API call. -/
def Event.isSheetCall : Event → Bool
  | Event.driveListCall => true
  | Event.createCall => true
  | Event.valuesGetCall _ => true
  | Event.appendCall _ => true
  | _ => false

/-- Test for a refresh-token exchange call. -/
def Event.isRefresh : Event → Bool
  | Event.refreshCall _ => true
  | _ => false

/-- Test for a token-introspection call. -/
def Event.isIntrospect : Event → Bool
  | Event.introspectCall _ => true
  | _ => false

/-- Test for a KV counter increment. -/
def Event.isIncr : Event → Bool
  | Event.kvIncr _ => true
  | _ => false

/-- Test for a values-append call. -/
def Event.isAppend : Event → Bool
  | Event.appendCall _ => true
  | _ => false

/-- State of the external KV counter store, with failure-injection flags for
its three operations. -/
structure KV where
  counters : String → Option Int
  ttl : String → Option Int
  getFails : Bool
  incrFails : Bool
  expireFails : Bool

/-- The KV key used for a user. -/
def rlKey (userId : String) : String := "ratelimit:" ++ userId

/-- RATE_WINDOW of src/api/sync.js: one hour in seconds. -/
def RATE_WINDOW : Int := 3600

/-- checkRateLimit of src/api/sync.js.  Returns the boolean the source
returns, the store state after the call and the calls made.  A store
operation that raises is caught by the source's catch, which returns
`true` (fail open); an increment already applied is not rolled back. -/
def checkRateLimit (rateLimit : Int) (kv : KV) (tr : Trace) (userId : String) :
    Bool × KV × Trace :=
  let key := rlKey userId
  if kv.getFails then
    (true, kv, tr ++ [Event.kvGet key])
  else
    let current := (kv.counters key).getD 0
    let tr1 := tr ++ [Event.kvGet key]
    if current ≥ rateLimit then
      (false, kv, tr1)
    else if kv.incrFails then
      (true, kv, tr1 ++ [Event.kvIncr key])
    else
      let kv1 : KV :=
        { kv with counters :=
            fun k => if k = key then some (((kv.counters k).getD 0) + 1)
                     else kv.counters k }
      let tr2 := tr1 ++ [Event.kvIncr key]
      if current = 0 then
        if kv.expireFails then
          (true, kv1, tr2 ++ [Event.kvExpire key RATE_WINDOW])
        else
          (true,
           { kv1 with ttl := fun k => if k = key then some RATE_WINDOW
                                      else kv1.ttl k },
           tr2 ++ [Event.kvExpire key RATE_WINDOW])
      else
        (true, kv1, tr2)

/-!
The request and response shapes and the oracles for the remote services.
-/

/-- The sheetConfig sub-object of the request body.  An object is always
truthy, so presence is modelled one level up via `Option`. -/
structure SheetConfigRaw where
  sheetName : JVal
  headers : JVal
deriving Repr

/-- The request body.  `accessToken` is a string; the empty string models an
absent or otherwise falsy token (the handler only tests its truthiness and
passes it to oracles).  `refreshToken` may be absent. -/
structure RequestBody where
  accessToken : String
  refreshToken : Option String
  sheetConfig : Option SheetConfigRaw
  rowData : JVal
deriving Repr

/-- HTTP methods the handler distinguishes. -/
inductive Method where
  | OPTIONS
  | POST
  | other
deriving DecidableEq, Repr

/-- An incoming request. -/
structure Request where
  method : Method
  body : RequestBody
deriving Repr

/-- Error kinds of the JSON error responses. -/
inductive ErrKind where
  | method_not_allowed
  | missing_fields
  | invalid_schema
  | header_mismatch
  | invalid_token
  | rate_limit_exceeded
  | server_error
deriving DecidableEq, Repr

/-- The JSON response (the OPTIONS preflight `res.end()` is modelled as a
bare success with no fields). -/
structure Response where
  status : Nat
  success : Bool
  error : Option ErrKind
  message : Option String
  rowsAdded : Option Int
  spreadsheetId : Option String
  tokenRefreshed : Option Bool
deriving DecidableEq, Repr

/-- An error response as the source builds them. -/
def errResponse (status : Nat) (kind : ErrKind) (msg : String) : Response :=
  { status := status, success := false, error := some kind,
    message := some msg, rowsAdded := none, spreadsheetId := none,
    tokenRefreshed := none }

/-- The 401 invalid_token response of the source. -/
def invalidTokenResponse : Response :=
  errResponse 401 ErrKind.invalid_token
    "Access token is invalid or expired. Re-authentication required."

/-- The environment and remote-service oracles for one request.  The Drive
and Sheets endpoints are each called at most once per request, so each is a
single oracle value; an `Except.error` models a thrown error carrying its
message. -/
structure World where
  clientId : Option String
  rateLimit : Int
  now : Int
  mockMode : Bool
  introspect : String → Option TokenInfo
  refreshExchange : String → Option String
  driveList : Except String (List String)
  valuesGetFirstRow : Except String (Option (List JVal))
  createdId : Except String String
  appendOutcome : Except String Unit

/-- The tokenInfo synthesized when MOCK_MODE is set. -/
def mockTokenInfo : TokenInfo :=
  { aud := none, exp := none, scope := none, azp := none, sub := "mock_user_123" }

/-- The message of the error thrown by ensureHeaders on a header mismatch
(the three concatenated literals of src/api/sync.js lines 337-341). -/
def headerMismatchMessage : String :=
  "Sheet headers do not match configuration. Please update client sheetConfig.headers to match the spreadsheet or delete the file in Google Drive to recreate it."

/-- ensureHeaders of src/api/sync.js (lines 322-347).  Reads the first
header row, compares it to the configured headers and throws on mismatch;
its own catch re-raises only errors whose message includes the literal
"Header mismatch" and swallows every other error. -/
def ensureHeaders (w : World) (headers : JVal) (tr : Trace) :
    Except String Unit × Trace :=
  let tr1 := tr ++ [Event.valuesGetCall "Sheet1!A1:ZZ1"]
  match w.valuesGetFirstRow with
  | Except.error msg =>
      (if strIncludes msg "Header mismatch" then Except.error msg
       else Except.ok (), tr1)
  | Except.ok firstRow =>
      let existingHeaders := firstRow.getD []
      if !jvalBeq (JVal.jarr existingHeaders) headers then
        (if strIncludes headerMismatchMessage "Header mismatch"
         then Except.error headerMismatchMessage
         else Except.ok (), tr1)
      else
        (Except.ok (), tr1)

/-- findOrCreateSpreadsheet of src/api/sync.js (lines 276-317).  Searches
Drive for the sheet; on a hit verifies headers, otherwise creates the
spreadsheet with the headers as first row.  Its catch logs and re-throws. -/
def findOrCreateSpreadsheet (w : World) (headers : JVal) (tr : Trace) :
    Except String String × Trace :=
  let tr1 := tr ++ [Event.driveListCall]
  match w.driveList with
  | Except.error msg => (Except.error msg, tr1)
  | Except.ok files =>
    match files with
    | fileId :: _ =>
        let r := ensureHeaders w headers tr1
        (match r.1 with
         | Except.error m => Except.error m
         | Except.ok _ => Except.ok fileId, r.2)
    | [] =>
        let tr2 := tr1 ++ [Event.createCall]
        match w.createdId with
        | Except.error m => (Except.error m, tr2)
        | Except.ok sid => (Except.ok sid, tr2)

/-- appendData of src/api/sync.js (lines 352-373).  Appends the rows over
the range `Sheet1!A:<columnLetter>` and returns `rowData.length`; a thrown
append error is wrapped with the prefix "Failed to append data: ". -/
def appendData (w : World) (headers : JVal) (rows : List JVal) (tr : Trace) :
    Except String Int × Trace :=
  let columnCount : Int := (jlength headers).getD 0
  let columnLetter := getColumnLetter columnCount
  let range := "Sheet1!A:" ++ columnLetter
  let tr1 := tr ++ [Event.appendCall range]
  match w.appendOutcome with
  | Except.error m => (Except.error ("Failed to append data: " ++ m), tr1)
  | Except.ok _ => (Except.ok (rows.length : Int), tr1)

/-- Steps 3-5 of attemptSync in src/api/sync.js (lines 120-149): rate
limiting, spreadsheet resolution, append and the success response.  The
`isRetry` flag is reported back as `tokenRefreshed`. -/
def syncAfterValidate (w : World) (headers : JVal) (rows : List JVal)
    (tokenInfo : TokenInfo) (isRetry : Bool) (kv : KV) (tr : Trace) :
    Except String Response × KV × Trace :=
  let userId := tokenInfo.sub
  let rl := checkRateLimit w.rateLimit kv tr userId
  let kv1 := rl.2.1
  let tr1 := rl.2.2
  if !rl.1 then
    (Except.ok (errResponse 429 ErrKind.rate_limit_exceeded
       "Hourly rate limit exceeded. Please try again later."), kv1, tr1)
  else
    let fr := findOrCreateSpreadsheet w headers tr1
    match fr.1 with
    | Except.error m => (Except.error m, kv1, fr.2)
    | Except.ok spreadsheetId =>
      let ar := appendData w headers rows fr.2
      match ar.1 with
      | Except.error m => (Except.error m, kv1, ar.2)
      | Except.ok rowsAdded =>
        (Except.ok
          { status := 200, success := true, error := none,
            message := some "Data synced successfully",
            rowsAdded := some rowsAdded,
            spreadsheetId := some spreadsheetId,
            tokenRefreshed := some isRetry }, kv1, ar.2)

/-- Steps 1-2 of attemptSync for the retried call
(`attemptSync(newToken, true)`): the refresh branch is disabled by the
`!isRetry` guard, so an invalid token yields the 401 directly.  The
source's recursion is bounded to depth two by that guard, so it is
unrolled into `attemptSyncRetry` and `attemptSyncFirst`. -/
def attemptSyncRetry (w : World) (headers : JVal) (rows : List JVal)
    (activeToken : String) (kv : KV) (tr : Trace) :
    Except String Response × KV × Trace :=
  let vt :=
    if w.mockMode then (some mockTokenInfo, tr)
    else (validateAccessToken w.clientId w.now (w.introspect activeToken),
          tr ++ [Event.introspectCall activeToken])
  match vt.1 with
  | none => (Except.ok invalidTokenResponse, kv, vt.2)
  | some ti => syncAfterValidate w headers rows ti true kv vt.2

/-- attemptSync of src/api/sync.js (lines 93-152) for the initial call
(`attemptSync(accessToken)`, `isRetry = false`): on an invalid token, if a
truthy refresh token was supplied, one exchange is attempted and on success
the whole sequence is re-run once via `attemptSyncRetry`. -/
def attemptSyncFirst (w : World) (headers : JVal) (rows : List JVal)
    (refreshToken : Option String) (activeToken : String) (kv : KV)
    (tr : Trace) : Except String Response × KV × Trace :=
  let vt :=
    if w.mockMode then (some mockTokenInfo, tr)
    else (validateAccessToken w.clientId w.now (w.introspect activeToken),
          tr ++ [Event.introspectCall activeToken])
  match vt.1 with
  | none =>
    match refreshToken with
    | some rt =>
      if rt != "" then
        let tr2 := vt.2 ++ [Event.refreshCall rt]
        match w.refreshExchange rt with
        | some newToken => attemptSyncRetry w headers rows newToken kv tr2
        | none => (Except.ok invalidTokenResponse, kv, tr2)
      else (Except.ok invalidTokenResponse, kv, vt.2)
    | none => (Except.ok invalidTokenResponse, kv, vt.2)
  | some ti => syncAfterValidate w headers rows ti false kv vt.2

/-- The outer catch of the handler (src/api/sync.js lines 154-171): a thrown
error whose message includes "Header mismatch" becomes a 400
header_mismatch, every other thrown error becomes a 500 server_error. -/
def handlerWrap (out : Except String Response × KV × Trace) :
    Response × KV × Trace :=
  match out.1 with
  | Except.ok resp => (resp, out.2.1, out.2.2)
  | Except.error m =>
    if strIncludes m "Header mismatch" then
      (errResponse 400 ErrKind.header_mismatch m, out.2.1, out.2.2)
    else
      (errResponse 500 ErrKind.server_error
        "Internal server error occurred while syncing", out.2.1, out.2.2)

/-- The exported handler of src/api/sync.js (lines 34-172): CORS preflight,
method check, the three shape validations, then `attemptSync(accessToken)`
wrapped in the try/catch that maps errors whose message includes
"Header mismatch" to a 400 header_mismatch and every other thrown error to
a 500 server_error. -/
def handler (w : World) (req : Request) (kv : KV) : Response × KV × Trace :=
  if req.method = Method.OPTIONS then
    ({ status := 200, success := true, error := none, message := none,
       rowsAdded := none, spreadsheetId := none, tokenRefreshed := none },
     kv, [])
  else if req.method ≠ Method.POST then
    ({ status := 405, success := false, error := some ErrKind.method_not_allowed,
       message := none, rowsAdded := none, spreadsheetId := none,
       tokenRefreshed := none }, kv, [])
  else
    if req.body.accessToken = "" ∨ req.body.sheetConfig.isNone
        ∨ truthy req.body.rowData = false then
      (errResponse 400 ErrKind.missing_fields
        "Access token, sheetConfig, and rowData are required", kv, [])
    else
      match req.body.sheetConfig with
      | none =>
        (errResponse 400 ErrKind.missing_fields
          "Access token, sheetConfig, and rowData are required", kv, [])
      | some sc =>
        if !truthy sc.sheetName || !isArray sc.headers then
          (errResponse 400 ErrKind.invalid_schema
            "sheetConfig must have sheetName (string) and headers (array)", kv, [])
        else
          match req.body.rowData with
          | JVal.jarr rows =>
            if rows.length = 0 then
              (errResponse 400 ErrKind.invalid_schema
                "rowData must be a non-empty array of arrays", kv, [])
            else
              match rowsSomeLengthNe ((jlength sc.headers).getD 0) rows with
              | Except.error m =>
                -- a row's .length access threw; the outer catch answers
                handlerWrap (Except.error m, kv, [])
              | Except.ok true =>
                (errResponse 400 ErrKind.invalid_schema
                  ("All rows must have " ++ toString ((jlength sc.headers).getD 0)
                    ++ " columns to match headers"), kv, [])
              | Except.ok false =>
                handlerWrap (attemptSyncFirst w sc.headers rows
                  req.body.refreshToken req.body.accessToken kv [])
          | _ =>
            (errResponse 400 ErrKind.invalid_schema
              "rowData must be a non-empty array of arrays", kv, [])

/-- Test for a KV store call. -/
def Event.isKvEv : Event → Bool
  | Event.kvGet _ => true
  | Event.kvIncr _ => true
  | Event.kvExpire _ _ => true
  | _ => false

/-- A POST request body that passes all three shape validations of the
handler, with `sc` its sheetConfig, `hs` the headers list and `rows` the
row list.  The components restate the handler's own checks verbatim. -/
def ShapeOK (b : RequestBody) (sc : SheetConfigRaw) (hs rows : List JVal) : Prop :=
  b.accessToken ≠ "" ∧
  b.sheetConfig = some sc ∧
  truthy sc.sheetName = true ∧
  sc.headers = JVal.jarr hs ∧
  b.rowData = JVal.jarr rows ∧
  rows ≠ [] ∧
  rows.any (fun row => jlength row != some ((hs.length : Nat) : Int)) = false

/-!
Concrete fixtures used by the counterexample and witness theorems.
-/

/-- A fully well-formed introspection result for user "user1". -/
def goodTI : TokenInfo :=
  { aud := some "client123", exp := some 2000,
    scope := some "https://www.googleapis.com/auth/spreadsheets",
    azp := some "client123", sub := "user1" }

/-- An otherwise well-formed introspection result whose expiry equals the
current time of `baseWorld`. -/
def expNowTI : TokenInfo :=
  { aud := some "client123", exp := some 1000,
    scope := some "https://www.googleapis.com/auth/spreadsheets",
    azp := some "client123", sub := "user1" }

/-- An empty, non-failing counter store. -/
def kv0 : KV :=
  { counters := fun _ => none, ttl := fun _ => none,
    getFails := false, incrFails := false, expireFails := false }

/-- A baseline world: client id configured, limit 100, current time 1000,
"tokGood" introspects to `goodTI`, "refGood" exchanges to "tokGood", no
existing spreadsheet, creation and append succeed. -/
def baseWorld : World :=
  { clientId := some "client123", rateLimit := 100, now := 1000,
    mockMode := false,
    introspect := fun t => if t = "tokGood" then some goodTI else none,
    refreshExchange := fun rt => if rt = "refGood" then some "tokGood" else none,
    driveList := Except.ok [],
    valuesGetFirstRow := Except.ok none,
    createdId := Except.ok "sheetNew",
    appendOutcome := Except.ok () }

/-- A well-formed body: valid token, one header "Date", one matching row. -/
def goodBody : RequestBody :=
  { accessToken := "tokGood", refreshToken := none,
    sheetConfig := some { sheetName := JVal.jstr "MySheet",
                          headers := JVal.jarr [JVal.jstr "Date"] },
    rowData := JVal.jarr [JVal.jarr [JVal.jstr "2024-01-01"]] }

/-- World for the header-mismatch scenario: the spreadsheet exists and its
first header row is ["X"], while the configured headers are ["Date"]. -/
def c1World : World :=
  { baseWorld with
    driveList := Except.ok ["fileExisting"],
    valuesGetFirstRow := Except.ok (some [JVal.jstr "X"]) }

/-- Body whose rowData holds a string row "ab" of JavaScript length 2,
matching the two headers, with an invalid access token. -/
def c7Body : RequestBody :=
  { accessToken := "tokBad", refreshToken := none,
    sheetConfig := some { sheetName := JVal.jstr "MySheet",
                          headers := JVal.jarr [JVal.jstr "A", JVal.jstr "B"] },
    rowData := JVal.jarr [JVal.jstr "ab"] }

/-- Body whose headers array contains the non-string element 1, with an
invalid access token. -/
def c8Body : RequestBody :=
  { accessToken := "tokBad", refreshToken := none,
    sheetConfig := some { sheetName := JVal.jstr "MySheet",
                          headers := JVal.jarr [JVal.jnum 1] },
    rowData := JVal.jarr [JVal.jarr [JVal.jnull]] }

/-- Body with an invalid access token and a usable refresh token. -/
def c2Body : RequestBody :=
  { accessToken := "tokBad", refreshToken := some "refGood",
    sheetConfig := some { sheetName := JVal.jstr "MySheet",
                          headers := JVal.jarr [JVal.jstr "Date"] },
    rowData := JVal.jarr [JVal.jarr [JVal.jstr "2024-01-01"]] }

/-- Body with empty headers and a single empty-array row. -/
def c9Body : RequestBody :=
  { accessToken := "tokGood", refreshToken := none,
    sheetConfig := some { sheetName := JVal.jstr "MySheet",
                          headers := JVal.jarr [] },
    rowData := JVal.jarr [JVal.jarr []] }

/-- Counter store whose get operation raises. -/
def kvGetFailing : KV :=
  { counters := fun _ => none, ttl := fun _ => none,
    getFails := true, incrFails := false, expireFails := false }

/-- Counter store in which user1 has already reached 100 this window. -/
def kvAtLimit : KV :=
  { counters := fun k => if k = rlKey "user1" then some 100 else none,
    ttl := fun _ => none,
    getFails := false, incrFails := false, expireFails := false }

/-- Body passing the first validations whose single row has length 0 while
there is one header. -/
def badLenBody : RequestBody :=
  { accessToken := "tokGood", refreshToken := none,
    sheetConfig := some { sheetName := JVal.jstr "MySheet",
                          headers := JVal.jarr [JVal.jstr "Date"] },
    rowData := JVal.jarr [JVal.jarr []] }

/-- Body passing the first validations whose single row is null, so the
row-length scan throws a TypeError. -/
def nullRowBody : RequestBody :=
  { accessToken := "tokGood", refreshToken := none,
    sheetConfig := some { sheetName := JVal.jstr "MySheet",
                          headers := JVal.jarr [JVal.jstr "Date"] },
    rowData := JVal.jarr [JVal.jnull] }

/-- Body whose headers field is not an array. -/
def badCfgBody : RequestBody :=
  { accessToken := "tokGood", refreshToken := none,
    sheetConfig := some { sheetName := JVal.jstr "MySheet",
                          headers := JVal.jstr "nope" },
    rowData := JVal.jarr [JVal.jarr []] }

/-- Predicate on events: every append call uses the range computed from the
configured headers. -/
def appendRangeP (H : JVal) : Event → Bool
  | Event.appendCall r =>
      r = "Sheet1!A:" ++ getColumnLetter ((jlength H).getD 0)
  | _ => true


/-!
Lemmas about the column-letter conversion.
-/
theorem gclGo_nonpos (n : Int) (hn : n ≤ 0) (s : String) : getColumnLetterGo n s = s := by
  rw [getColumnLetterGo]
  simp [show ¬ n > 0 by omega]

theorem charToNat_ofNat_small (k : Nat) (hk : k < 26) :
    (Char.ofNat (k + 65)).toNat = k + 65 := by
  interval_cases k <;> decide

theorem valFrom_cons (i : Nat) (c : Char) (s : String) :
    valFrom i (String.mk [c] ++ s) = valFrom (i * 26 + (c.toNat - 64)) s := by
  simp [valFrom, letterStep, String.mk, String.data_append]

theorem valFrom_go (k : Nat) : ∀ (n : Int), 0 ≤ n → n.toNat ≤ k → ∀ s : String,
    valFrom 0 (getColumnLetterGo n s) = valFrom n.toNat s := by
  induction k with
  | zero =>
    intro n h0 hk s
    have hn : n = 0 := by omega
    rw [gclGo_nonpos n (by omega)]
    simp [hn]
  | succ k ih =>
    intro n h0 hk s
    by_cases h : n > 0
    · rw [getColumnLetterGo]
      simp only [dif_pos h]
      have ha : (0 : Int) ≤ n - 1 := by omega
      have hd := Int.ediv_add_emod (n - 1) 26
      have hr0 : (0 : Int) ≤ (n - 1) % 26 := Int.emod_nonneg _ (by omega)
      have hr1 : (n - 1) % 26 < 26 := Int.emod_lt_of_pos _ (by omega)
      have hq0 : (0 : Int) ≤ (n - 1) / 26 := Int.ediv_nonneg ha (by omega)
      have hqk : ((n - 1) / 26).toNat ≤ k := by
        have h2 : (n - 1) / 26 ≤ n - 1 := Int.ediv_le_self 26 ha
        omega
      rw [ih _ hq0 hqk]
      rw [valFrom_cons]
      have hc : (Char.ofNat (((n - 1) % 26).toNat + 65)).toNat
          = ((n - 1) % 26).toNat + 65 := charToNat_ofNat_small _ (by omega)
      rw [hc]
      congr 1
      omega
    · rw [gclGo_nonpos n (by omega)]
      have : n = 0 := by omega
      simp [this]

theorem lettersToNat_gcl (n : Int) (hn : 0 < n) :
    lettersToNat (getColumnLetter n) = n.toNat := by
  rw [lettersToNat, getColumnLetter, valFrom_go n.toNat n (by omega) le_rfl]
  rfl

theorem gcl_injective (a b : Int) (ha : 0 < a) (hb : 0 < b)
    (h : getColumnLetter a = getColumnLetter b) : a = b := by
  have h1 := lettersToNat_gcl a ha
  have h2 := lettersToNat_gcl b hb
  rw [h] at h1
  omega



theorem v2go_eq_go (k : Nat) : ∀ (n : Int), n.toNat ≤ k → ∀ s : String,
    getColumnLetterV2Go n s = getColumnLetterGo n s := by
  induction k with
  | zero =>
    intro n hk s
    rw [getColumnLetterV2Go, getColumnLetterGo]
    have : ¬ n > 0 := by omega
    simp [this]
  | succ k ih =>
    intro n hk s
    by_cases h : n > 0
    · rw [getColumnLetterV2Go, getColumnLetterGo]
      simp only [dif_pos h]
      have ha : (0 : Int) ≤ n - 1 := by omega
      have hd := Int.ediv_add_emod (n - 1) 26
      have hr0 : (0 : Int) ≤ (n - 1) % 26 := Int.emod_nonneg _ (by omega)
      have harg : (n - ((n - 1) % 26) - 1) / 26 = (n - 1) / 26 := by
        have h2 : n - ((n - 1) % 26) - 1 = 26 * ((n - 1) / 26) := by omega
        rw [h2, Int.mul_ediv_cancel_left _ (by omega : (26 : Int) ≠ 0)]
      rw [harg]
      have hq0 : (0 : Int) ≤ (n - 1) / 26 := Int.ediv_nonneg ha (by omega)
      have hqk : ((n - 1) / 26).toNat ≤ k := by
        have h3 : (n - 1) / 26 ≤ n - 1 := Int.ediv_le_self 26 ha
        omega
      exact ih _ hqk _
    · rw [getColumnLetterV2Go, getColumnLetterGo]
      simp [h]

theorem v2_eq (n : Int) : getColumnLetterV2 n = getColumnLetter n := by
  rw [getColumnLetterV2, getColumnLetter, v2go_eq_go n.toNat n le_rfl]

theorem spec_unfold_pos (m : Nat) (hm : m ≠ 0) :
    specBijectiveBase26 m
      = specBijectiveBase26 ((m - 1) / 26) ++ String.mk [Char.ofNat ((m - 1) % 26 + 65)] := by
  rw [specBijectiveBase26]
  simp [hm]

theorem go_eq_spec (k : Nat) : ∀ (n : Int), 0 ≤ n → n.toNat ≤ k → ∀ s : String,
    getColumnLetterGo n s = specBijectiveBase26 n.toNat ++ s := by
  induction k with
  | zero =>
    intro n h0 hk s
    have hn : n = 0 := by omega
    rw [gclGo_nonpos n (by omega), hn]
    rw [show ((0 : Int)).toNat = 0 from rfl, specBijectiveBase26]
    rfl
  | succ k ih =>
    intro n h0 hk s
    by_cases h : n > 0
    · rw [getColumnLetterGo]
      simp only [dif_pos h]
      have ha : (0 : Int) ≤ n - 1 := by omega
      have hd := Int.ediv_add_emod (n - 1) 26
      have hr0 : (0 : Int) ≤ (n - 1) % 26 := Int.emod_nonneg _ (by omega)
      have hr1 : (n - 1) % 26 < 26 := Int.emod_lt_of_pos _ (by omega)
      have hq0 : (0 : Int) ≤ (n - 1) / 26 := Int.ediv_nonneg ha (by omega)
      have hqk : ((n - 1) / 26).toNat ≤ k := by
        have h2 : (n - 1) / 26 ≤ n - 1 := Int.ediv_le_self 26 ha
        omega
      rw [ih _ hq0 hqk]
      rw [spec_unfold_pos n.toNat (by omega)]
      have e1 : (n.toNat - 1) / 26 = ((n - 1) / 26).toNat := by omega
      have e2 : (n.toNat - 1) % 26 = ((n - 1) % 26).toNat := by omega
      rw [e1, e2, String.append_assoc]
    · have hn : n = 0 := by omega
      rw [gclGo_nonpos n (by omega), hn]
      rw [show ((0 : Int)).toNat = 0 from rfl, specBijectiveBase26]
      rfl

theorem gcl_eq_spec (n : Int) (hn : 0 < n) :
    getColumnLetter n = specBijectiveBase26 n.toNat := by
  rw [getColumnLetter, go_eq_spec n.toNat n (by omega) le_rfl, String.append_empty]

theorem gcl_nonpos (n : Int) (hn : n ≤ 0) : getColumnLetter n = "" := by
  rw [getColumnLetter, gclGo_nonpos n hn]

theorem gcl_1 : getColumnLetter 1 = "A" := by
  rw [getColumnLetter, getColumnLetterGo]; norm_num
  rw [getColumnLetterGo]; norm_num

theorem gcl_26 : getColumnLetter 26 = "Z" := by
  rw [getColumnLetter, getColumnLetterGo]; norm_num
  rw [getColumnLetterGo]; norm_num
  decide

theorem gcl_27 : getColumnLetter 27 = "AA" := by
  rw [getColumnLetter, getColumnLetterGo]; norm_num
  rw [getColumnLetterGo]; norm_num
  rw [getColumnLetterGo]; norm_num
  decide

theorem gcl_52 : getColumnLetter 52 = "AZ" := by
  rw [getColumnLetter, getColumnLetterGo]; norm_num
  rw [getColumnLetterGo]; norm_num
  rw [getColumnLetterGo]; norm_num
  decide

theorem gcl_53 : getColumnLetter 53 = "BA" := by
  rw [getColumnLetter, getColumnLetterGo]; norm_num
  rw [getColumnLetterGo]; norm_num
  rw [getColumnLetterGo]; norm_num
  decide

theorem gcl_702 : getColumnLetter 702 = "ZZ" := by
  rw [getColumnLetter, getColumnLetterGo]; norm_num
  rw [getColumnLetterGo]; norm_num
  rw [getColumnLetterGo]; norm_num
  decide

theorem gcl_703 : getColumnLetter 703 = "AAA" := by
  rw [getColumnLetter, getColumnLetterGo]; norm_num
  rw [getColumnLetterGo]; norm_num
  rw [getColumnLetterGo]; norm_num
  rw [getColumnLetterGo]; norm_num
  decide


/-!
Lemmas about the handler pipeline.
-/

theorem handlerWrap_kv (out : Except String Response × KV × Trace) :
    (handlerWrap out).2.1 = out.2.1 := by
  unfold handlerWrap
  rcases out with ⟨r, kv, tr⟩
  cases r with
  | ok resp => rfl
  | error m => by_cases h : strIncludes m "Header mismatch" = true <;> simp [h]

theorem handlerWrap_tr (out : Except String Response × KV × Trace) :
    (handlerWrap out).2.2 = out.2.2 := by
  unfold handlerWrap
  rcases out with ⟨r, kv, tr⟩
  cases r with
  | ok resp => rfl
  | error m => by_cases h : strIncludes m "Header mismatch" = true <;> simp [h]

theorem handlerWrap_ok (out : Except String Response × KV × Trace) (resp : Response)
    (h : out.1 = Except.ok resp) : (handlerWrap out).1 = resp := by
  unfold handlerWrap
  rw [h]

theorem handlerWrap_err_kind (out : Except String Response × KV × Trace) (m : String)
    (h : out.1 = Except.error m) :
    (handlerWrap out).1.error = some ErrKind.header_mismatch
    ∨ (handlerWrap out).1.error = some ErrKind.server_error := by
  unfold handlerWrap
  rw [h]
  by_cases hm : strIncludes m "Header mismatch" = true <;> simp [hm, errResponse]

theorem rowsSome_of_any_false (hc : Int) (rows : List JVal)
    (h : rows.any (fun row => jlength row != some hc) = false) :
    rowsSomeLengthNe hc rows = Except.ok false := by
  induction rows with
  | nil => rfl
  | cons r rs ih =>
    simp only [List.any_cons, Bool.or_eq_false_iff] at h
    obtain ⟨h1, h2⟩ := h
    have hl : jlength r = some hc := by
      simpa using h1
    cases r with
    | jnull => cases hl
    | jbool bb => cases hl
    | jnum n => cases hl
    | jstr str =>
      simp only [jlength] at hl
      simp [rowsSomeLengthNe, jsLengthAccess, hl, ih h2]
    | jarr xs =>
      simp only [jlength] at hl
      simp [rowsSomeLengthNe, jsLengthAccess, hl, ih h2]

theorem rowsSome_error_msg (hc : Int) (rows : List JVal) (m : String)
    (h : rowsSomeLengthNe hc rows = Except.error m) :
    m = lengthOfNullMessage := by
  induction rows with
  | nil => cases h
  | cons r rs ih =>
    cases r with
    | jnull =>
      simp only [rowsSomeLengthNe, jsLengthAccess] at h
      cases h
      rfl
    | jbool bb =>
      simp only [rowsSomeLengthNe, jsLengthAccess] at h
      revert h
      split
      · intro h
        cases h
      · exact ih
    | jnum n =>
      simp only [rowsSomeLengthNe, jsLengthAccess] at h
      revert h
      split
      · intro h
        cases h
      · exact ih
    | jstr str =>
      simp only [rowsSomeLengthNe, jsLengthAccess] at h
      revert h
      split
      · intro h
        cases h
      · exact ih
    | jarr xs =>
      simp only [rowsSomeLengthNe, jsLengthAccess] at h
      revert h
      split
      · intro h
        cases h
      · exact ih

theorem handler_run (w : World) (kv : KV) (b : RequestBody) (sc : SheetConfigRaw)
    (hs rows : List JVal) (hsh : ShapeOK b sc hs rows) :
    handler w ⟨Method.POST, b⟩ kv
      = handlerWrap (attemptSyncFirst w (JVal.jarr hs) rows b.refreshToken
          b.accessToken kv []) := by
  obtain ⟨hat, hsc, hname, hhead, hrow, hne, hlen⟩ := hsh
  unfold handler
  simp only [hsc, hrow, hhead]
  have hc : rowsSomeLengthNe ((jlength (JVal.jarr hs)).getD 0) rows
      = Except.ok false := by
    have hJ : (jlength (JVal.jarr hs)).getD 0 = ((hs.length : Nat) : Int) := by
      simp [jlength]
    rw [hJ]
    exact rowsSome_of_any_false _ rows hlen
  have ht : truthy (JVal.jarr rows) = true := rfl
  have hia : isArray (JVal.jarr hs) = true := rfl
  simp [hat, hname, ht, hia, hne, List.length_eq_zero, hc]



theorem attemptFirst_valid (w : World) (H : JVal) (rows : List JVal)
    (rt : Option String) (tok : String) (kv : KV) (tr : Trace) (ti : TokenInfo)
    (hmock : w.mockMode = false)
    (hv : validateAccessToken w.clientId w.now (w.introspect tok) = some ti) :
    attemptSyncFirst w H rows rt tok kv tr
      = syncAfterValidate w H rows ti false kv (tr ++ [Event.introspectCall tok]) := by
  unfold attemptSyncFirst
  simp [hmock, hv]

theorem attemptFirst_invalid_norefresh (w : World) (H : JVal) (rows : List JVal)
    (rt : Option String) (tok : String) (kv : KV) (tr : Trace)
    (hmock : w.mockMode = false)
    (hv : validateAccessToken w.clientId w.now (w.introspect tok) = none)
    (hrt : rt = none ∨ rt = some "") :
    attemptSyncFirst w H rows rt tok kv tr
      = (Except.ok invalidTokenResponse, kv, tr ++ [Event.introspectCall tok]) := by
  unfold attemptSyncFirst
  rcases hrt with h | h <;> subst h <;> simp [hmock, hv]

theorem attemptFirst_refresh_fail (w : World) (H : JVal) (rows : List JVal)
    (r : String) (tok : String) (kv : KV) (tr : Trace)
    (hmock : w.mockMode = false)
    (hv : validateAccessToken w.clientId w.now (w.introspect tok) = none)
    (hr : r ≠ "") (hx : w.refreshExchange r = none) :
    attemptSyncFirst w H rows (some r) tok kv tr
      = (Except.ok invalidTokenResponse, kv,
         tr ++ [Event.introspectCall tok] ++ [Event.refreshCall r]) := by
  unfold attemptSyncFirst
  simp [hmock, hv, hr, hx]

theorem attemptFirst_refresh_ok (w : World) (H : JVal) (rows : List JVal)
    (r : String) (tok t' : String) (kv : KV) (tr : Trace)
    (hmock : w.mockMode = false)
    (hv : validateAccessToken w.clientId w.now (w.introspect tok) = none)
    (hr : r ≠ "") (hx : w.refreshExchange r = some t') :
    attemptSyncFirst w H rows (some r) tok kv tr
      = attemptSyncRetry w H rows t' kv
          (tr ++ [Event.introspectCall tok] ++ [Event.refreshCall r]) := by
  unfold attemptSyncFirst
  simp [hmock, hv, hr, hx]

theorem attemptRetry_valid (w : World) (H : JVal) (rows : List JVal)
    (tok : String) (kv : KV) (tr : Trace) (ti : TokenInfo)
    (hmock : w.mockMode = false)
    (hv : validateAccessToken w.clientId w.now (w.introspect tok) = some ti) :
    attemptSyncRetry w H rows tok kv tr
      = syncAfterValidate w H rows ti true kv (tr ++ [Event.introspectCall tok]) := by
  unfold attemptSyncRetry
  simp [hmock, hv]

theorem attemptRetry_invalid (w : World) (H : JVal) (rows : List JVal)
    (tok : String) (kv : KV) (tr : Trace)
    (hmock : w.mockMode = false)
    (hv : validateAccessToken w.clientId w.now (w.introspect tok) = none) :
    attemptSyncRetry w H rows tok kv tr
      = (Except.ok invalidTokenResponse, kv, tr ++ [Event.introspectCall tok]) := by
  unfold attemptSyncRetry
  simp [hmock, hv]

theorem checkRL_getFails (rl : Int) (kv : KV) (tr : Trace) (uid : String)
    (hg : kv.getFails = true) :
    checkRateLimit rl kv tr uid = (true, kv, tr ++ [Event.kvGet (rlKey uid)]) := by
  unfold checkRateLimit
  simp [hg]

theorem checkRL_denied (rl : Int) (kv : KV) (tr : Trace) (uid : String)
    (hg : kv.getFails = false)
    (hge : (kv.counters (rlKey uid)).getD 0 ≥ rl) :
    checkRateLimit rl kv tr uid = (false, kv, tr ++ [Event.kvGet (rlKey uid)]) := by
  unfold checkRateLimit
  simp [hg, hge]

theorem checkRL_allowed (rl : Int) (kv : KV) (tr : Trace) (uid : String)
    (hg : kv.getFails = false) (hi : kv.incrFails = false)
    (he : kv.expireFails = false)
    (hlt : (kv.counters (rlKey uid)).getD 0 < rl) :
    (checkRateLimit rl kv tr uid).1 = true
    ∧ (checkRateLimit rl kv tr uid).2.1.counters (rlKey uid)
        = some ((kv.counters (rlKey uid)).getD 0 + 1)
    ∧ (checkRateLimit rl kv tr uid).2.2
        = tr ++ [Event.kvGet (rlKey uid), Event.kvIncr (rlKey uid)]
            ++ (if (kv.counters (rlKey uid)).getD 0 = 0
                then [Event.kvExpire (rlKey uid) RATE_WINDOW] else []) := by
  unfold checkRateLimit
  have hnge : ¬ ((kv.counters (rlKey uid)).getD 0 ≥ rl) := by omega
  by_cases h0 : (kv.counters (rlKey uid)).getD 0 = 0
  · have hrl0 : ¬ rl ≤ 0 := by omega
    simp [hg, hi, he, hnge, h0, hrl0]
  · simp [hg, hi, he, hnge, h0]

theorem checkRL_under (rl : Int) (kv : KV) (tr : Trace) (uid : String)
    (hg : kv.getFails = false)
    (hlt : (kv.counters (rlKey uid)).getD 0 < rl) :
    (checkRateLimit rl kv tr uid).1 = true := by
  unfold checkRateLimit
  have hnge : ¬ ((kv.counters (rlKey uid)).getD 0 ≥ rl) := by omega
  by_cases hi : kv.incrFails = true
  · simp [hg, hnge, hi]
  · have hi2 : kv.incrFails = false := by
      revert hi
      cases kv.incrFails <;> simp
    simp [hg, hnge, hi2]
    split
    · split <;> rfl
    · rfl

theorem checkRL_false_inv (rl : Int) (kv : KV) (tr : Trace) (uid : String)
    (h : (checkRateLimit rl kv tr uid).1 = false) :
    kv.getFails = false ∧ (kv.counters (rlKey uid)).getD 0 ≥ rl := by
  by_cases hg : kv.getFails = true
  · rw [checkRL_getFails rl kv tr uid hg] at h
    simp at h
  · have hg2 : kv.getFails = false := by
      revert hg
      cases kv.getFails <;> simp
    refine ⟨hg2, ?_⟩
    by_cases hge : (kv.counters (rlKey uid)).getD 0 ≥ rl
    · exact hge
    · exfalso
      rw [checkRL_under rl kv tr uid hg2 (by omega)] at h
      simp at h



theorem ensureHeaders_tr (w : World) (H : JVal) (tr : Trace) :
    (ensureHeaders w H tr).2 = tr ++ [Event.valuesGetCall "Sheet1!A1:ZZ1"] := by
  unfold ensureHeaders
  cases h : w.valuesGetFirstRow with
  | error m => simp [h]
  | ok fr =>
    simp only [h]
    split <;> rfl

theorem appendData_tr (w : World) (H : JVal) (rows : List JVal) (tr : Trace) :
    (appendData w H rows tr).2
      = tr ++ [Event.appendCall ("Sheet1!A:" ++ getColumnLetter ((jlength H).getD 0))] := by
  unfold appendData
  cases h : w.appendOutcome <;> simp [h]

theorem findOrCreate_anatomy (w : World) (H : JVal) (tr : Trace) :
    ∃ rest : Trace,
      (findOrCreateSpreadsheet w H tr).2 = tr ++ Event.driveListCall :: rest
      ∧ rest.all (fun e => Event.isSheetCall e && !(Event.isAppend e)) = true := by
  unfold findOrCreateSpreadsheet
  cases h : w.driveList with
  | error m => exact ⟨[], by simp [h], rfl⟩
  | ok files =>
    cases files with
    | nil =>
      cases h2 : w.createdId with
      | error m => exact ⟨[Event.createCall], by simp [h, h2], rfl⟩
      | ok sid => exact ⟨[Event.createCall], by simp [h, h2], rfl⟩
    | cons f fs =>
      refine ⟨[Event.valuesGetCall "Sheet1!A1:ZZ1"], ?_, rfl⟩
      simp only [h]
      have := ensureHeaders_tr w H (tr ++ [Event.driveListCall])
      simp [this]

theorem checkRL_anatomy (rl : Int) (kv : KV) (tr : Trace) (uid : String) :
    ∃ rest : Trace, (checkRateLimit rl kv tr uid).2.2 = tr ++ rest
      ∧ rest.all Event.isKvEv = true := by
  unfold checkRateLimit
  by_cases hg : kv.getFails = true
  · exact ⟨[Event.kvGet (rlKey uid)], by simp [hg], rfl⟩
  · have hg2 : kv.getFails = false := by
      revert hg
      cases kv.getFails <;> simp
    by_cases hge : (kv.counters (rlKey uid)).getD 0 ≥ rl
    · exact ⟨[Event.kvGet (rlKey uid)], by simp [hg2, hge], rfl⟩
    · by_cases hi : kv.incrFails = true
      · exact ⟨[Event.kvGet (rlKey uid), Event.kvIncr (rlKey uid)],
          by simp [hg2, hge, hi], rfl⟩
      · have hi2 : kv.incrFails = false := by
          revert hi
          cases kv.incrFails <;> simp
        by_cases h0 : (kv.counters (rlKey uid)).getD 0 = 0
        · by_cases he : kv.expireFails = true
          · exact ⟨[Event.kvGet (rlKey uid), Event.kvIncr (rlKey uid),
              Event.kvExpire (rlKey uid) RATE_WINDOW],
              by
                have hrl0 : ¬ rl ≤ 0 := by omega
                simp [hg2, hge, hi2, h0, he, hrl0], rfl⟩
          · have he2 : kv.expireFails = false := by
              revert he
              cases kv.expireFails <;> simp
            exact ⟨[Event.kvGet (rlKey uid), Event.kvIncr (rlKey uid),
              Event.kvExpire (rlKey uid) RATE_WINDOW],
              by
                have hrl0 : ¬ rl ≤ 0 := by omega
                simp [hg2, hge, hi2, h0, he2, hrl0], rfl⟩
        · exact ⟨[Event.kvGet (rlKey uid), Event.kvIncr (rlKey uid)],
            by simp [hg2, hge, hi2, h0], rfl⟩

theorem syncAfter_anatomy (w : World) (H : JVal) (rows : List JVal)
    (ti : TokenInfo) (b : Bool) (kv : KV) (tr : Trace) :
    ∃ rest : Trace,
      (syncAfterValidate w H rows ti b kv tr).2.2
        = (checkRateLimit w.rateLimit kv tr ti.sub).2.2 ++ rest
      ∧ (syncAfterValidate w H rows ti b kv tr).2.1
        = (checkRateLimit w.rateLimit kv tr ti.sub).2.1
      ∧ rest.all Event.isSheetCall = true
      ∧ rest.all (appendRangeP H) = true
      ∧ ((checkRateLimit w.rateLimit kv tr ti.sub).1 = true →
          ∃ rest2, rest = Event.driveListCall :: rest2) := by
  unfold syncAfterValidate
  by_cases hb : (checkRateLimit w.rateLimit kv tr ti.sub).1 = true
  · obtain ⟨restF, hF, hFall⟩ :=
      findOrCreate_anatomy w H (checkRateLimit w.rateLimit kv tr ti.sub).2.2
    have hFsheet : restF.all Event.isSheetCall = true := by
      rw [List.all_eq_true] at hFall ⊢
      intro e he
      have h1 := hFall e he
      revert h1
      cases e <;> simp [Event.isSheetCall, Event.isAppend]
    have hFrange : restF.all (appendRangeP H) = true := by
      rw [List.all_eq_true] at hFall ⊢
      intro e he
      have h1 := hFall e he
      revert h1
      cases e <;> simp [Event.isSheetCall, Event.isAppend, appendRangeP]
    cases hfr : (findOrCreateSpreadsheet w H
        (checkRateLimit w.rateLimit kv tr ti.sub).2.2).1 with
    | error m =>
      refine ⟨Event.driveListCall :: restF, ?_, ?_, ?_, ?_, fun _ => ⟨restF, rfl⟩⟩
      · simp [hb, hfr, hF]
      · simp [hb, hfr]
      · simp only [List.all_cons, Bool.and_eq_true]
        exact ⟨rfl, hFsheet⟩
      · simp only [List.all_cons, Bool.and_eq_true]
        exact ⟨by simp [appendRangeP], hFrange⟩
    | ok sid =>
      have hA := appendData_tr w H rows
        (findOrCreateSpreadsheet w H (checkRateLimit w.rateLimit kv tr ti.sub).2.2).2
      refine ⟨Event.driveListCall :: restF
          ++ [Event.appendCall ("Sheet1!A:" ++ getColumnLetter ((jlength H).getD 0))],
          ?_, ?_, ?_, ?_, fun _ => ⟨restF
            ++ [Event.appendCall ("Sheet1!A:" ++ getColumnLetter ((jlength H).getD 0))], rfl⟩⟩
      · cases ha : (appendData w H rows
            (findOrCreateSpreadsheet w H
              (checkRateLimit w.rateLimit kv tr ti.sub).2.2).2).1 with
        | error m =>
          simp only [hb, Bool.not_true, Bool.false_eq_true, if_false, hfr, ha]
          rw [hA, hF]
          simp [List.append_assoc]
        | ok n =>
          simp only [hb, Bool.not_true, Bool.false_eq_true, if_false, hfr, ha]
          rw [hA, hF]
          simp [List.append_assoc]
      · cases ha : (appendData w H rows
            (findOrCreateSpreadsheet w H
              (checkRateLimit w.rateLimit kv tr ti.sub).2.2).2).1 with
        | error m => simp [hb, hfr, ha]
        | ok n => simp [hb, hfr, ha]
      · simp only [List.cons_append, List.all_cons, List.all_append,
          Bool.and_eq_true]
        exact ⟨rfl, hFsheet, rfl, rfl⟩
      · simp only [List.cons_append, List.all_cons, List.all_append,
          Bool.and_eq_true]
        exact ⟨by simp [appendRangeP], hFrange, by simp [appendRangeP]⟩
  · have hb2 : (checkRateLimit w.rateLimit kv tr ti.sub).1 = false := by
      revert hb
      cases (checkRateLimit w.rateLimit kv tr ti.sub).1 <;> simp
    exact ⟨[], by simp [hb2], by simp [hb2], rfl, rfl,
      fun hcl => absurd hcl (by simp [hb2])⟩



theorem countP_zero_of_all (l : List Event) (p q : Event → Bool)
    (hall : l.all p = true) (himp : ∀ e, p e = true → q e = false) :
    l.countP q = 0 := by
  rw [List.countP_eq_zero]
  intro a ha
  have h1 := (List.all_eq_true.mp hall) a ha
  simp [himp a h1]

theorem syncAfter_ok_inv (w : World) (H : JVal) (rows : List JVal)
    (ti : TokenInfo) (b : Bool) (kv : KV) (tr : Trace) (resp : Response)
    (h : (syncAfterValidate w H rows ti b kv tr).1 = Except.ok resp) :
    (resp = errResponse 429 ErrKind.rate_limit_exceeded
        "Hourly rate limit exceeded. Please try again later."
      ∧ (checkRateLimit w.rateLimit kv tr ti.sub).1 = false)
    ∨ (resp.status = 200 ∧ resp.error = none ∧ resp.tokenRefreshed = some b) := by
  unfold syncAfterValidate at h
  by_cases hb : (checkRateLimit w.rateLimit kv tr ti.sub).1 = true
  · right
    simp only [hb, Bool.not_true, Bool.false_eq_true, if_false] at h
    cases hfr : (findOrCreateSpreadsheet w H
        (checkRateLimit w.rateLimit kv tr ti.sub).2.2).1 with
    | error m => rw [hfr] at h; simp at h
    | ok sid =>
      rw [hfr] at h
      cases ha : (appendData w H rows
          (findOrCreateSpreadsheet w H
            (checkRateLimit w.rateLimit kv tr ti.sub).2.2).2).1 with
      | error m => rw [ha] at h; simp at h
      | ok n =>
        rw [ha] at h
        simp only [Except.ok.injEq] at h
        rw [← h]
        exact ⟨rfl, rfl, rfl⟩
  · have hb2 : (checkRateLimit w.rateLimit kv tr ti.sub).1 = false := by
      revert hb
      cases (checkRateLimit w.rateLimit kv tr ti.sub).1 <;> simp
    left
    simp only [hb2, Bool.not_false, if_true] at h
    simp only [Except.ok.injEq] at h
    exact ⟨h.symm, hb2⟩

theorem syncAfter_countP (w : World) (H : JVal) (rows : List JVal)
    (ti : TokenInfo) (b : Bool) (kv : KV) (tr : Trace) (q : Event → Bool)
    (hkv : ∀ e, Event.isKvEv e = true → q e = false)
    (hsheet : ∀ e, Event.isSheetCall e = true → q e = false) :
    (syncAfterValidate w H rows ti b kv tr).2.2.countP q = tr.countP q := by
  obtain ⟨rest, htr, hkv1, hall, hrange, hdrive⟩ :=
    syncAfter_anatomy w H rows ti b kv tr
  obtain ⟨restK, hK, hKall⟩ := checkRL_anatomy w.rateLimit kv tr ti.sub
  rw [htr, hK, List.countP_append, List.countP_append]
  rw [countP_zero_of_all restK Event.isKvEv q hKall hkv]
  rw [countP_zero_of_all rest Event.isSheetCall q hall hsheet]
  omega

theorem attemptRetry_countP (w : World) (H : JVal) (rows : List JVal)
    (tok : String) (kv : KV) (tr : Trace) (q : Event → Bool)
    (hkv : ∀ e, Event.isKvEv e = true → q e = false)
    (hsheet : ∀ e, Event.isSheetCall e = true → q e = false)
    (hintro : ∀ t, q (Event.introspectCall t) = false) :
    (attemptSyncRetry w H rows tok kv tr).2.2.countP q = tr.countP q := by
  unfold attemptSyncRetry
  by_cases hm : w.mockMode = true
  · simp only [hm, if_true]
    exact syncAfter_countP w H rows mockTokenInfo true kv tr q hkv hsheet
  · have hm2 : w.mockMode = false := by
      revert hm
      cases w.mockMode <;> simp
    simp only [hm2, Bool.false_eq_true, if_false]
    cases hv : validateAccessToken w.clientId w.now (w.introspect tok) with
    | none => simp [List.countP_append, List.countP_cons, hintro]
    | some ti =>
      rw [syncAfter_countP w H rows ti true kv _ q hkv hsheet]
      simp [List.countP_append, List.countP_cons, hintro]

theorem attemptFirst_countP_refresh (w : World) (H : JVal) (rows : List JVal)
    (rt : Option String) (tok : String) (kv : KV) (tr : Trace) :
    (attemptSyncFirst w H rows rt tok kv tr).2.2.countP Event.isRefresh
      ≤ tr.countP Event.isRefresh + 1 := by
  have hkv : ∀ e, Event.isKvEv e = true → Event.isRefresh e = false := by
    intro e
    cases e <;> simp [Event.isKvEv, Event.isRefresh]
  have hsheet : ∀ e, Event.isSheetCall e = true → Event.isRefresh e = false := by
    intro e
    cases e <;> simp [Event.isSheetCall, Event.isRefresh]
  have hintro : ∀ t, Event.isRefresh (Event.introspectCall t) = false := by
    intro t
    rfl
  unfold attemptSyncFirst
  by_cases hm : w.mockMode = true
  · simp only [hm, if_true]
    rw [syncAfter_countP w H rows mockTokenInfo false kv tr _ hkv hsheet]
    omega
  · have hm2 : w.mockMode = false := by
      revert hm
      cases w.mockMode <;> simp
    simp only [hm2, Bool.false_eq_true, if_false]
    cases hv : validateAccessToken w.clientId w.now (w.introspect tok) with
    | some ti =>
      rw [syncAfter_countP w H rows ti false kv _ _ hkv hsheet]
      simp [List.countP_append, List.countP_cons, hintro]
    | none =>
      cases rt with
      | none => simp [List.countP_append, List.countP_cons, hintro]
      | some r =>
        by_cases hr : r != ""
        · simp only [hr, if_true]
          cases hx : w.refreshExchange r with
          | none =>
            simp [List.countP_append, List.countP_cons, hintro, Event.isRefresh]
          | some t2 =>
            rw [attemptRetry_countP w H rows t2 kv _ _ hkv hsheet hintro]
            simp [List.countP_append, List.countP_cons, hintro, Event.isRefresh]
        · simp only [Bool.not_eq_true] at hr
          simp [hr, List.countP_append, List.countP_cons, hintro]


theorem handler_cases (w : World) (req : Request) (kv : KV) :
    ((handler w req kv).2.2 = [] ∧ (handler w req kv).2.1 = kv
      ∧ ((handler w req kv).1.error = none
         ∨ (handler w req kv).1.error = some ErrKind.method_not_allowed
         ∨ (handler w req kv).1.error = some ErrKind.missing_fields
         ∨ (handler w req kv).1.error = some ErrKind.invalid_schema
         ∨ (handler w req kv).1.error = some ErrKind.header_mismatch
         ∨ (handler w req kv).1.error = some ErrKind.server_error))
    ∨ ∃ H rows, handler w req kv
        = handlerWrap (attemptSyncFirst w H rows req.body.refreshToken
            req.body.accessToken kv []) := by
  unfold handler
  split
  · exact Or.inl ⟨rfl, rfl, Or.inl rfl⟩
  split
  · exact Or.inl ⟨rfl, rfl, Or.inr (Or.inl rfl)⟩
  split
  · exact Or.inl ⟨rfl, rfl, Or.inr (Or.inr (Or.inl rfl))⟩
  split
  · exact Or.inl ⟨rfl, rfl, Or.inr (Or.inr (Or.inl rfl))⟩
  split
  · exact Or.inl ⟨rfl, rfl, Or.inr (Or.inr (Or.inr (Or.inl rfl)))⟩
  split
  · split
    · exact Or.inl ⟨rfl, rfl, Or.inr (Or.inr (Or.inr (Or.inl rfl)))⟩
    split
    · next m hm =>
      refine Or.inl ⟨handlerWrap_tr _, handlerWrap_kv _, ?_⟩
      rcases handlerWrap_err_kind (Except.error m, kv, []) m rfl with h | h
      · exact Or.inr (Or.inr (Or.inr (Or.inr (Or.inl h))))
      · exact Or.inr (Or.inr (Or.inr (Or.inr (Or.inr h))))
    · exact Or.inl ⟨rfl, rfl, Or.inr (Or.inr (Or.inr (Or.inl rfl)))⟩
    · exact Or.inr ⟨_, _, rfl⟩
  · exact Or.inl ⟨rfl, rfl, Or.inr (Or.inr (Or.inr (Or.inl rfl)))⟩

theorem attemptRetry_rl (w : World) (H : JVal) (rows : List JVal)
    (tok : String) (kv : KV) (tr : Trace) (resp : Response)
    (h : (attemptSyncRetry w H rows tok kv tr).1 = Except.ok resp)
    (hr : resp.error = some ErrKind.rate_limit_exceeded) :
    kv.getFails = false := by
  unfold attemptSyncRetry at h
  by_cases hm : w.mockMode = true
  · simp only [hm, if_true] at h
    rcases syncAfter_ok_inv _ _ _ _ _ _ _ _ h with ⟨h429, hfalse⟩ | ⟨_, herr, _⟩
    · exact (checkRL_false_inv _ _ _ _ hfalse).1
    · rw [herr] at hr
      cases hr
  · have hm2 : w.mockMode = false := by
      revert hm
      cases w.mockMode <;> simp
    simp only [hm2, Bool.false_eq_true, if_false] at h
    cases hv : validateAccessToken w.clientId w.now (w.introspect tok) with
    | none =>
      rw [hv] at h
      simp only [Except.ok.injEq] at h
      rw [← h] at hr
      cases hr
    | some ti =>
      rw [hv] at h
      rcases syncAfter_ok_inv _ _ _ _ _ _ _ _ h with ⟨h429, hfalse⟩ | ⟨_, herr, _⟩
      · exact (checkRL_false_inv _ _ _ _ hfalse).1
      · rw [herr] at hr
        cases hr

theorem attemptFirst_rl (w : World) (H : JVal) (rows : List JVal)
    (rt : Option String) (tok : String) (kv : KV) (tr : Trace) (resp : Response)
    (h : (attemptSyncFirst w H rows rt tok kv tr).1 = Except.ok resp)
    (hr : resp.error = some ErrKind.rate_limit_exceeded) :
    kv.getFails = false := by
  unfold attemptSyncFirst at h
  by_cases hm : w.mockMode = true
  · simp only [hm, if_true] at h
    rcases syncAfter_ok_inv _ _ _ _ _ _ _ _ h with ⟨h429, hfalse⟩ | ⟨_, herr, _⟩
    · exact (checkRL_false_inv _ _ _ _ hfalse).1
    · rw [herr] at hr
      cases hr
  · have hm2 : w.mockMode = false := by
      revert hm
      cases w.mockMode <;> simp
    simp only [hm2, Bool.false_eq_true, if_false] at h
    cases hv : validateAccessToken w.clientId w.now (w.introspect tok) with
    | some ti =>
      rw [hv] at h
      rcases syncAfter_ok_inv _ _ _ _ _ _ _ _ h with ⟨h429, hfalse⟩ | ⟨_, herr, _⟩
      · exact (checkRL_false_inv _ _ _ _ hfalse).1
      · rw [herr] at hr
        cases hr
    | none =>
      rw [hv] at h
      cases rt with
      | none =>
        simp only [Except.ok.injEq] at h
        rw [← h] at hr
        cases hr
      | some r =>
        by_cases hrr : r != ""
        · simp only [hrr, if_true] at h
          cases hx : w.refreshExchange r with
          | none =>
            rw [hx] at h
            simp only [Except.ok.injEq] at h
            rw [← h] at hr
            cases hr
          | some t2 =>
            rw [hx] at h
            exact attemptRetry_rl w H rows t2 kv _ resp h hr
        · simp only [Bool.not_eq_true] at hrr
          simp only [hrr, Bool.false_eq_true, if_false] at h
          simp only [Except.ok.injEq] at h
          rw [← h] at hr
          cases hr

theorem all_imp (l : List Event) (p q : Event → Bool)
    (h : l.all p = true) (himp : ∀ e, p e = true → q e = true) :
    l.all q = true := by
  rw [List.all_eq_true] at h ⊢
  exact fun e he => himp e (h e he)

theorem handlerWrap_err_status (out : Except String Response × KV × Trace)
    (m : String) (h : out.1 = Except.error m) :
    (handlerWrap out).1.status = 400 ∨ (handlerWrap out).1.status = 500 := by
  unfold handlerWrap
  rw [h]
  by_cases hm : strIncludes m "Header mismatch" = true <;> simp [hm, errResponse]

theorem attemptRetry_countP_intro (w : World) (H : JVal) (rows : List JVal)
    (tok : String) (kv : KV) (tr : Trace) (hm : w.mockMode = false) :
    (attemptSyncRetry w H rows tok kv tr).2.2.countP Event.isIntrospect
      = tr.countP Event.isIntrospect + 1 := by
  have hkv : ∀ e, Event.isKvEv e = true → Event.isIntrospect e = false := by
    intro e
    cases e <;> simp [Event.isKvEv, Event.isIntrospect]
  have hsheet : ∀ e, Event.isSheetCall e = true → Event.isIntrospect e = false := by
    intro e
    cases e <;> simp [Event.isSheetCall, Event.isIntrospect]
  unfold attemptSyncRetry
  simp only [hm, Bool.false_eq_true, if_false]
  cases hv : validateAccessToken w.clientId w.now (w.introspect tok) with
  | none => simp [List.countP_append, List.countP_cons, Event.isIntrospect]
  | some ti =>
    rw [syncAfter_countP w H rows ti true kv _ _ hkv hsheet]
    simp [List.countP_append, List.countP_cons, Event.isIntrospect]

theorem attemptRetry_ok_err (w : World) (H : JVal) (rows : List JVal)
    (tok : String) (kv : KV) (tr : Trace) (resp : Response)
    (h : (attemptSyncRetry w H rows tok kv tr).1 = Except.ok resp) :
    resp.error = none ∨ resp.error = some ErrKind.invalid_token
    ∨ resp.error = some ErrKind.rate_limit_exceeded := by
  unfold attemptSyncRetry at h
  by_cases hm : w.mockMode = true
  · simp only [hm, if_true] at h
    rcases syncAfter_ok_inv _ _ _ _ _ _ _ _ h with ⟨h429, _⟩ | ⟨_, herr, _⟩
    · rw [h429]
      right; right; rfl
    · exact Or.inl herr
  · have hm2 : w.mockMode = false := by
      revert hm
      cases w.mockMode <;> simp
    simp only [hm2, Bool.false_eq_true, if_false] at h
    cases hv : validateAccessToken w.clientId w.now (w.introspect tok) with
    | none =>
      rw [hv] at h
      simp only [Except.ok.injEq] at h
      rw [← h]
      right; left; rfl
    | some ti =>
      rw [hv] at h
      rcases syncAfter_ok_inv _ _ _ _ _ _ _ _ h with ⟨h429, _⟩ | ⟨_, herr, _⟩
      · rw [h429]
        right; right; rfl
      · exact Or.inl herr

theorem attemptFirst_ok_err (w : World) (H : JVal) (rows : List JVal)
    (rt : Option String) (tok : String) (kv : KV) (tr : Trace) (resp : Response)
    (h : (attemptSyncFirst w H rows rt tok kv tr).1 = Except.ok resp) :
    resp.error = none ∨ resp.error = some ErrKind.invalid_token
    ∨ resp.error = some ErrKind.rate_limit_exceeded := by
  unfold attemptSyncFirst at h
  by_cases hm : w.mockMode = true
  · simp only [hm, if_true] at h
    rcases syncAfter_ok_inv _ _ _ _ _ _ _ _ h with ⟨h429, _⟩ | ⟨_, herr, _⟩
    · rw [h429]
      right; right; rfl
    · exact Or.inl herr
  · have hm2 : w.mockMode = false := by
      revert hm
      cases w.mockMode <;> simp
    simp only [hm2, Bool.false_eq_true, if_false] at h
    cases hv : validateAccessToken w.clientId w.now (w.introspect tok) with
    | some ti =>
      rw [hv] at h
      rcases syncAfter_ok_inv _ _ _ _ _ _ _ _ h with ⟨h429, _⟩ | ⟨_, herr, _⟩
      · rw [h429]
        right; right; rfl
      · exact Or.inl herr
    | none =>
      rw [hv] at h
      cases rt with
      | none =>
        simp only [Except.ok.injEq] at h
        rw [← h]
        right; left; rfl
      | some r =>
        by_cases hrr : r != ""
        · simp only [hrr, if_true] at h
          cases hx : w.refreshExchange r with
          | none =>
            rw [hx] at h
            simp only [Except.ok.injEq] at h
            rw [← h]
            right; left; rfl
          | some t2 =>
            rw [hx] at h
            exact attemptRetry_ok_err w H rows t2 kv _ resp h
        · simp only [Bool.not_eq_true] at hrr
          simp only [hrr, Bool.false_eq_true, if_false] at h
          simp only [Except.ok.injEq] at h
          rw [← h]
          right; left; rfl

theorem syncAfter_append_range (w : World) (H : JVal) (rows : List JVal)
    (ti : TokenInfo) (b : Bool) (kv : KV) (tr : Trace)
    (htr : tr.all (appendRangeP H) = true) :
    (syncAfterValidate w H rows ti b kv tr).2.2.all (appendRangeP H) = true := by
  obtain ⟨rest, htrace, _, _, hrange, _⟩ := syncAfter_anatomy w H rows ti b kv tr
  obtain ⟨restK, hK, hKall⟩ := checkRL_anatomy w.rateLimit kv tr ti.sub
  rw [htrace, hK, List.all_append, List.all_append]
  have h1 : restK.all (appendRangeP H) = true := by
    refine all_imp restK Event.isKvEv _ hKall ?_
    intro e
    cases e <;> simp [Event.isKvEv, appendRangeP]
  simp [htr, h1, hrange]

theorem attemptRetry_append_range (w : World) (H : JVal) (rows : List JVal)
    (tok : String) (kv : KV) (tr : Trace)
    (htr : tr.all (appendRangeP H) = true) :
    (attemptSyncRetry w H rows tok kv tr).2.2.all (appendRangeP H) = true := by
  unfold attemptSyncRetry
  by_cases hm : w.mockMode = true
  · simp only [hm, if_true]
    exact syncAfter_append_range w H rows mockTokenInfo true kv tr htr
  · have hm2 : w.mockMode = false := by
      revert hm
      cases w.mockMode <;> simp
    simp only [hm2, Bool.false_eq_true, if_false]
    cases hv : validateAccessToken w.clientId w.now (w.introspect tok) with
    | none => simp [List.all_append, htr, appendRangeP]
    | some ti =>
      refine syncAfter_append_range w H rows ti true kv _ ?_
      simp [List.all_append, htr, appendRangeP]

theorem attemptFirst_append_range (w : World) (H : JVal) (rows : List JVal)
    (rt : Option String) (tok : String) (kv : KV) (tr : Trace)
    (htr : tr.all (appendRangeP H) = true) :
    (attemptSyncFirst w H rows rt tok kv tr).2.2.all (appendRangeP H) = true := by
  unfold attemptSyncFirst
  by_cases hm : w.mockMode = true
  · simp only [hm, if_true]
    exact syncAfter_append_range w H rows mockTokenInfo false kv tr htr
  · have hm2 : w.mockMode = false := by
      revert hm
      cases w.mockMode <;> simp
    simp only [hm2, Bool.false_eq_true, if_false]
    cases hv : validateAccessToken w.clientId w.now (w.introspect tok) with
    | some ti =>
      refine syncAfter_append_range w H rows ti false kv _ ?_
      simp [List.all_append, htr, appendRangeP]
    | none =>
      cases rt with
      | none => simp [List.all_append, htr, appendRangeP]
      | some r =>
        by_cases hrr : r != ""
        · simp only [hrr, if_true]
          cases hx : w.refreshExchange r with
          | none => simp [List.all_append, htr, appendRangeP]
          | some t2 =>
            refine attemptRetry_append_range w H rows t2 kv _ ?_
            simp [List.all_append, htr, appendRangeP]
        · simp only [Bool.not_eq_true] at hrr
          simp [hrr, List.all_append, htr, appendRangeP]


/-!
Claim theorems.
-/

/-- C3: the column-letter conversion of src/api/sync.js implements the
bijective base-26 algorithm of the spec, agrees with the variant in
src/unnamed/part_000, is injective on positive integers, and takes the
seven listed values. -/
theorem c3_column_letter_conversion :
    (getColumnLetter 1 = "A" ∧ getColumnLetter 26 = "Z" ∧ getColumnLetter 27 = "AA"
      ∧ getColumnLetter 52 = "AZ" ∧ getColumnLetter 53 = "BA"
      ∧ getColumnLetter 702 = "ZZ" ∧ getColumnLetter 703 = "AAA")
    ∧ (∀ n : Int, getColumnLetterV2 n = getColumnLetter n)
    ∧ (∀ n : Int, 0 < n → getColumnLetter n = specBijectiveBase26 n.toNat)
    ∧ (∀ a b : Int, 0 < a → 0 < b → getColumnLetter a = getColumnLetter b → a = b) :=
  ⟨⟨gcl_1, gcl_26, gcl_27, gcl_52, gcl_53, gcl_702, gcl_703⟩,
   v2_eq, gcl_eq_spec, gcl_injective⟩

/-- Witness for C3 at concrete inputs 27 and 5. -/
theorem c3_column_letter_conversion_witness :
    (0 < (27 : Int) ∧ getColumnLetter 27 = specBijectiveBase26 (27 : Int).toNat)
    ∧ (0 < (5 : Int) ∧ getColumnLetter 5 = getColumnLetter 5 ∧ (5 : Int) = 5) :=
  ⟨⟨by norm_num, c3_column_letter_conversion.2.2.1 27 (by norm_num)⟩,
   ⟨by norm_num, rfl,
    c3_column_letter_conversion.2.2.2 5 5 (by norm_num) (by norm_num) rfl⟩⟩

/-- C4 counterexample: an introspection result whose expiry equals the
current time (so expiry is at the current time) passes validation, because
the source rejects only a strictly smaller expiry. -/
theorem c4_counterexample_exp_at_now :
    expNowTI.exp = some 1000 ∧ (1000 : Int) ≤ 1000
    ∧ validateAccessToken (some "client123") 1000 (some expNowTI) = some expNowTI := by
  refine ⟨rfl, by norm_num, ?_⟩
  decide

/-- C4 amended: token validation rejects every introspection result whose
expiry is strictly before the current time, regardless of the other
fields. -/
theorem c4_expiry_strictly_before (clientId : Option String) (now : Int)
    (ti : TokenInfo) (e : Int) (hexp : ti.exp = some e) (hlt : e < now) :
    validateAccessToken clientId now (some ti) = none := by
  unfold validateAccessToken
  by_cases ha : (optTruthy clientId && ti.aud != clientId) = true
  · simp [ha]
  · have ha2 : (optTruthy clientId && ti.aud != clientId) = false := by
      revert ha
      cases optTruthy clientId && ti.aud != clientId <;> simp
    simp [ha2, hexp, hlt]

/-- Witness for C4 at a concrete expired token. -/
theorem c4_expiry_strictly_before_witness :
    expNowTI.exp = some 1000 ∧ (1000 : Int) < 1001
    ∧ validateAccessToken (some "client123") 1001 (some expNowTI) = none :=
  ⟨rfl, by norm_num,
   c4_expiry_strictly_before (some "client123") 1001 expNowTI 1000 rfl (by norm_num)⟩

/-- C1 (code bug): with an existing spreadsheet whose first header row ["X"]
differs from the configured headers ["Date"], the handler nevertheless
returns 200 success and appends the row, because the error thrown by
ensureHeaders does not contain the literal "Header mismatch" that both
catch blocks test for, so the mismatch is swallowed. -/
theorem c1_header_mismatch_swallowed :
    jvalBeq (JVal.jarr [JVal.jstr "X"]) (JVal.jarr [JVal.jstr "Date"]) = false
    ∧ strIncludes headerMismatchMessage "Header mismatch" = false
    ∧ (handler c1World ⟨Method.POST, goodBody⟩ kv0).1
        = { status := 200, success := true, error := none,
            message := some "Data synced successfully", rowsAdded := some 1,
            spreadsheetId := some "fileExisting", tokenRefreshed := some false }
    ∧ (handler c1World ⟨Method.POST, goodBody⟩ kv0).2.2.countP Event.isAppend = 1 := by
  refine ⟨by decide, by decide, by decide, by decide⟩

/-- C7 counterexample: a row that is the string "ab" is not a sequence, yet
its JavaScript length 2 matches the two headers, so the request passes the
shape validation, reaches token introspection (a downstream call) and is
answered 401 rather than 400 invalid_schema. -/
theorem c7_counterexample_string_row :
    isArray (JVal.jstr "ab") = false
    ∧ (handler baseWorld ⟨Method.POST, c7Body⟩ kv0).1.error
        ≠ some ErrKind.invalid_schema
    ∧ (handler baseWorld ⟨Method.POST, c7Body⟩ kv0).1 = invalidTokenResponse
    ∧ (handler baseWorld ⟨Method.POST, c7Body⟩ kv0).2.2
        = [Event.introspectCall "tokBad"] := by
  refine ⟨by decide, by decide, by decide, by decide⟩

/-- C7 amended: for a present (truthy) rowData, the handler returns 400
invalid_schema with no external call and an unchanged store when rowData is
not an array, is an empty array, or the left-to-right scan of the rows
finds one whose JavaScript length differs from headers.length; when the
scan instead reaches a null row first, the .length access throws a
TypeError and the handler answers 500 server_error, still with no external
call.  A non-array row whose length matches is not rejected. -/
theorem c7_row_shape_validation (w : World) (kv : KV) (b : RequestBody)
    (sc : SheetConfigRaw)
    (hat : b.accessToken ≠ "") (hsc : b.sheetConfig = some sc)
    (hrowT : truthy b.rowData = true)
    (hname : truthy sc.sheetName = true) (hisarr : isArray sc.headers = true) :
    (((∀ rows : List JVal, b.rowData ≠ JVal.jarr rows)
       ∨ b.rowData = JVal.jarr []
       ∨ (∃ rows, b.rowData = JVal.jarr rows
           ∧ rowsSomeLengthNe ((jlength sc.headers).getD 0) rows
               = Except.ok true)) →
      ((handler w ⟨Method.POST, b⟩ kv).1.status = 400
       ∧ (handler w ⟨Method.POST, b⟩ kv).1.error = some ErrKind.invalid_schema
       ∧ (handler w ⟨Method.POST, b⟩ kv).2.2 = []
       ∧ (handler w ⟨Method.POST, b⟩ kv).2.1 = kv))
    ∧ (∀ (rows : List JVal) (m : String),
        b.rowData = JVal.jarr rows →
        rowsSomeLengthNe ((jlength sc.headers).getD 0) rows = Except.error m →
        ((handler w ⟨Method.POST, b⟩ kv).1.status = 500
         ∧ (handler w ⟨Method.POST, b⟩ kv).1.error = some ErrKind.server_error
         ∧ (handler w ⟨Method.POST, b⟩ kv).2.2 = []
         ∧ (handler w ⟨Method.POST, b⟩ kv).2.1 = kv)) := by
  constructor
  · intro hbad
    rcases hbad with hb1 | hb2 | ⟨rows, hb3, hok⟩
    · cases hv : b.rowData with
      | jarr xs => exact absurd hv (hb1 xs)
      | jnull =>
        rw [hv] at hrowT
        cases hrowT
      | jbool bb =>
        unfold handler
        simp only [hsc, hv]
        rw [hv] at hrowT
        simp [hat, hname, hisarr, hrowT, errResponse]
      | jnum n =>
        unfold handler
        simp only [hsc, hv]
        rw [hv] at hrowT
        simp [hat, hname, hisarr, hrowT, errResponse]
      | jstr str =>
        unfold handler
        simp only [hsc, hv]
        rw [hv] at hrowT
        simp [hat, hname, hisarr, hrowT, errResponse]
    · unfold handler
      simp only [hsc, hb2]
      have ht : truthy (JVal.jarr ([] : List JVal)) = true := rfl
      simp [hat, hname, hisarr, errResponse, ht]
    · unfold handler
      simp only [hsc, hb3]
      rw [hb3] at hrowT
      by_cases hlen0 : rows.length = 0
      · simp [hat, hname, hisarr, hrowT, hlen0, errResponse]
      · simp [hat, hname, hisarr, hrowT, hlen0, hok, errResponse]
  · intro rows m hb3 herr
    unfold handler
    simp only [hsc, hb3]
    rw [hb3] at hrowT
    by_cases hlen0 : rows.length = 0
    · exfalso
      have hnil : rows = [] := List.length_eq_zero.mp hlen0
      rw [hnil] at herr
      cases herr
    · have hm := rowsSome_error_msg _ rows m herr
      have hni : strIncludes m "Header mismatch" = false := by
        rw [hm]
        decide
      simp [hat, hname, hisarr, hrowT, hlen0, herr, handlerWrap, hni, errResponse]

/-- Witness for C7 at a concrete zero-length row against one header, and at
a concrete null row making the length scan throw. -/
theorem c7_row_shape_validation_witness :
    truthy badLenBody.rowData = true
    ∧ ((handler baseWorld ⟨Method.POST, badLenBody⟩ kv0).1.status = 400
       ∧ (handler baseWorld ⟨Method.POST, badLenBody⟩ kv0).1.error
           = some ErrKind.invalid_schema
       ∧ (handler baseWorld ⟨Method.POST, badLenBody⟩ kv0).2.2 = []
       ∧ (handler baseWorld ⟨Method.POST, badLenBody⟩ kv0).2.1 = kv0)
    ∧ rowsSomeLengthNe ((jlength (JVal.jarr [JVal.jstr "Date"])).getD 0)
        [JVal.jnull] = Except.error lengthOfNullMessage
    ∧ ((handler baseWorld ⟨Method.POST, nullRowBody⟩ kv0).1.status = 500
       ∧ (handler baseWorld ⟨Method.POST, nullRowBody⟩ kv0).1.error
           = some ErrKind.server_error
       ∧ (handler baseWorld ⟨Method.POST, nullRowBody⟩ kv0).2.2 = []
       ∧ (handler baseWorld ⟨Method.POST, nullRowBody⟩ kv0).2.1 = kv0) :=
  ⟨rfl,
   (c7_row_shape_validation baseWorld kv0 badLenBody
     { sheetName := JVal.jstr "MySheet", headers := JVal.jarr [JVal.jstr "Date"] }
     (by decide) rfl rfl rfl rfl).1
     (Or.inr (Or.inr ⟨[JVal.jarr []], rfl, rfl⟩)),
   rfl,
   (c7_row_shape_validation baseWorld kv0 nullRowBody
     { sheetName := JVal.jstr "MySheet", headers := JVal.jarr [JVal.jstr "Date"] }
     (by decide) rfl rfl rfl rfl).2
     [JVal.jnull] lengthOfNullMessage rfl rfl⟩

/-- C8 counterexample: a headers array containing the non-string element 1
passes validation (only Array.isArray is checked), so the request is not
rejected with invalid_schema and a downstream introspection call occurs. -/
theorem c8_counterexample_nonstring_header :
    isArray (JVal.jarr [JVal.jnum 1]) = true
    ∧ (handler baseWorld ⟨Method.POST, c8Body⟩ kv0).1.error
        ≠ some ErrKind.invalid_schema
    ∧ (handler baseWorld ⟨Method.POST, c8Body⟩ kv0).1 = invalidTokenResponse
    ∧ (handler baseWorld ⟨Method.POST, c8Body⟩ kv0).2.2 ≠ [] := by
  refine ⟨by decide, by decide, by decide, by decide⟩

/-- C8 amended: the sheetConfig validation checks only that sheetName is
truthy and headers is an array; requests violating either are rejected with
invalid_schema before any external call, while element types are not
inspected. -/
theorem c8_sheetconfig_validation (w : World) (kv : KV) (b : RequestBody)
    (sc : SheetConfigRaw)
    (hat : b.accessToken ≠ "") (hsc : b.sheetConfig = some sc)
    (hrowT : truthy b.rowData = true)
    (hbad : truthy sc.sheetName = false ∨ isArray sc.headers = false) :
    handler w ⟨Method.POST, b⟩ kv
      = (errResponse 400 ErrKind.invalid_schema
          "sheetConfig must have sheetName (string) and headers (array)", kv, []) := by
  unfold handler
  simp only [hsc]
  rcases hbad with h1 | h1 <;> simp [hat, hrowT, h1]

/-- Witness for C8 at a concrete non-array headers value. -/
theorem c8_sheetconfig_validation_witness :
    truthy badCfgBody.rowData = true
    ∧ isArray (JVal.jstr "nope") = false
    ∧ handler baseWorld ⟨Method.POST, badCfgBody⟩ kv0
        = (errResponse 400 ErrKind.invalid_schema
            "sheetConfig must have sheetName (string) and headers (array)", kv0, []) :=
  ⟨rfl, rfl, c8_sheetconfig_validation baseWorld kv0 badCfgBody _ (by decide) rfl rfl
    (Or.inr rfl)⟩


/-- C6: once the per-identity counter has reached the configured threshold,
checkRateLimit answers false without mutating the store, and at handler
level the request is answered 429 rate_limit_exceeded with the store
unchanged and no spreadsheet call (the trace holds only the introspection
and the counter read). -/
theorem c6_rate_limit_threshold :
    (∀ (rl : Int) (kv : KV) (tr : Trace) (uid : String),
       kv.getFails = false → (kv.counters (rlKey uid)).getD 0 ≥ rl →
       checkRateLimit rl kv tr uid = (false, kv, tr ++ [Event.kvGet (rlKey uid)]))
    ∧ (∀ (w : World) (kv : KV) (b : RequestBody) (sc : SheetConfigRaw)
         (hs rows : List JVal) (ti : TokenInfo),
        ShapeOK b sc hs rows → w.mockMode = false →
        validateAccessToken w.clientId w.now (w.introspect b.accessToken) = some ti →
        kv.getFails = false →
        (kv.counters (rlKey ti.sub)).getD 0 ≥ w.rateLimit →
        handler w ⟨Method.POST, b⟩ kv
          = (errResponse 429 ErrKind.rate_limit_exceeded
              "Hourly rate limit exceeded. Please try again later.",
             kv, [Event.introspectCall b.accessToken, Event.kvGet (rlKey ti.sub)])) := by
  constructor
  · exact checkRL_denied
  · intro w kv b sc hs rows ti hsh hmock hv hg hge
    rw [handler_run w kv b sc hs rows hsh]
    rw [attemptFirst_valid w (JVal.jarr hs) rows b.refreshToken b.accessToken kv []
        ti hmock hv]
    have hden := checkRL_denied w.rateLimit kv
      ([] ++ [Event.introspectCall b.accessToken]) ti.sub hg hge
    unfold syncAfterValidate
    simp only [hden]
    simp [handlerWrap, errResponse]

/-- Witness for C6 at a concrete world whose counter already reads 100. -/
theorem c6_rate_limit_threshold_witness :
    kvAtLimit.getFails = false
    ∧ (kvAtLimit.counters (rlKey "user1")).getD 0 ≥ baseWorld.rateLimit
    ∧ handler baseWorld ⟨Method.POST, goodBody⟩ kvAtLimit
        = (errResponse 429 ErrKind.rate_limit_exceeded
            "Hourly rate limit exceeded. Please try again later.",
           kvAtLimit, [Event.introspectCall "tokGood", Event.kvGet (rlKey "user1")]) :=
  ⟨rfl, by decide,
   c6_rate_limit_threshold.2 baseWorld kvAtLimit goodBody _ [JVal.jstr "Date"]
     [JVal.jarr [JVal.jstr "2024-01-01"]] goodTI
     ⟨by decide, rfl, rfl, rfl, rfl, by simp, by decide⟩
     rfl (by decide) rfl (by decide)⟩

/-- C5: the rate limiter fails open.  When the counter store raises (on the
get, or on the increment, or on the expiry call, in the states where the
source reaches that call), checkRateLimit still answers true; at handler
level a request against a store whose get raises is never answered
rate_limit_exceeded, and a shape-valid request with a valid token still
reaches the Drive search. -/
theorem c5_rate_limiter_fails_open :
    (∀ (rl : Int) (kv : KV) (tr : Trace) (uid : String),
       (kv.getFails = true
        ∨ (kv.getFails = false ∧ kv.incrFails = true
            ∧ (kv.counters (rlKey uid)).getD 0 < rl)
        ∨ (kv.getFails = false ∧ kv.expireFails = true
            ∧ (kv.counters (rlKey uid)).getD 0 = 0 ∧ 0 < rl)) →
       (checkRateLimit rl kv tr uid).1 = true)
    ∧ (∀ (w : World) (req : Request) (kv : KV), kv.getFails = true →
        (handler w req kv).1.error ≠ some ErrKind.rate_limit_exceeded)
    ∧ (∀ (w : World) (kv : KV) (b : RequestBody) (sc : SheetConfigRaw)
         (hs rows : List JVal) (ti : TokenInfo),
        ShapeOK b sc hs rows → w.mockMode = false →
        validateAccessToken w.clientId w.now (w.introspect b.accessToken) = some ti →
        kv.getFails = true →
        Event.driveListCall ∈ (handler w ⟨Method.POST, b⟩ kv).2.2) := by
  refine ⟨?_, ?_, ?_⟩
  · intro rl kv tr uid hcase
    rcases hcase with hg | ⟨hg, _, hlt⟩ | ⟨hg, _, h0, hrl⟩
    · rw [checkRL_getFails rl kv tr uid hg]
    · exact checkRL_under rl kv tr uid hg hlt
    · exact checkRL_under rl kv tr uid hg (by omega)
  · intro w req kv hg
    rcases handler_cases w req kv with ⟨_, _, herr⟩ | ⟨H, rows, heq⟩
    · rcases herr with h | h | h | h | h | h <;> rw [h] <;> simp
    · rw [heq]
      cases ho : (attemptSyncFirst w H rows req.body.refreshToken
          req.body.accessToken kv []).1 with
      | ok resp =>
        rw [handlerWrap_ok _ resp ho]
        intro hcon
        have := attemptFirst_rl w H rows req.body.refreshToken
          req.body.accessToken kv [] resp ho hcon
        rw [hg] at this
        cases this
      | error m =>
        rcases handlerWrap_err_kind _ m ho with h | h <;> rw [h] <;> simp
  · intro w kv b sc hs rows ti hsh hmock hv hg
    rw [handler_run w kv b sc hs rows hsh, handlerWrap_tr]
    rw [attemptFirst_valid w (JVal.jarr hs) rows b.refreshToken b.accessToken kv []
        ti hmock hv]
    obtain ⟨rest, htr, _, _, _, hdrive⟩ :=
      syncAfter_anatomy w (JVal.jarr hs) rows ti false kv
        ([] ++ [Event.introspectCall b.accessToken])
    have hcl1 : (checkRateLimit w.rateLimit kv
        ([] ++ [Event.introspectCall b.accessToken]) ti.sub).1 = true := by
      rw [checkRL_getFails _ _ _ _ hg]
    obtain ⟨rest2, hr2⟩ := hdrive hcl1
    rw [htr, hr2]
    simp

/-- Witness for C5: a get-failing store still yields an allowed check, a
non-429 response and a Drive search. -/
theorem c5_rate_limiter_fails_open_witness :
    kvGetFailing.getFails = true
    ∧ (checkRateLimit 100 kvGetFailing [] "user1").1 = true
    ∧ (handler baseWorld ⟨Method.POST, goodBody⟩ kvGetFailing).1.error
        ≠ some ErrKind.rate_limit_exceeded
    ∧ Event.driveListCall
        ∈ (handler baseWorld ⟨Method.POST, goodBody⟩ kvGetFailing).2.2 :=
  ⟨rfl,
   c5_rate_limiter_fails_open.1 100 kvGetFailing [] "user1" (Or.inl rfl),
   c5_rate_limiter_fails_open.2.1 baseWorld ⟨Method.POST, goodBody⟩ kvGetFailing rfl,
   c5_rate_limiter_fails_open.2.2 baseWorld kvGetFailing goodBody _ [JVal.jstr "Date"]
     [JVal.jarr [JVal.jstr "2024-01-01"]] goodTI
     ⟨by decide, rfl, rfl, rfl, rfl, by simp, by decide⟩
     rfl (by decide) rfl⟩

end SheetsSync

namespace SheetsSync

/-- C2: at most one refresh exchange is ever attempted; when validation of
the supplied token fails and a truthy refresh token is present exactly one
exchange occurs; a failed exchange, an absent refresh token, or a failed
retried validation each yield the 401 invalid_token response; a successful
exchange re-runs the sequence exactly once (two introspection calls) and
any eventual 200 response carries tokenRefreshed = true. -/
theorem c2_refresh_flow :
    (∀ (w : World) (req : Request) (kv : KV),
        (handler w req kv).2.2.countP Event.isRefresh ≤ 1)
    ∧ (∀ (w : World) (kv : KV) (b : RequestBody) (sc : SheetConfigRaw)
         (hs rows : List JVal) (rt : String),
        ShapeOK b sc hs rows → w.mockMode = false →
        validateAccessToken w.clientId w.now (w.introspect b.accessToken) = none →
        b.refreshToken = some rt → rt ≠ "" →
        ((handler w ⟨Method.POST, b⟩ kv).2.2.countP Event.isRefresh = 1
         ∧ (w.refreshExchange rt = none →
              (handler w ⟨Method.POST, b⟩ kv).1 = invalidTokenResponse)
         ∧ (∀ t2, w.refreshExchange rt = some t2 →
              ((handler w ⟨Method.POST, b⟩ kv).2.2.countP Event.isIntrospect = 2
               ∧ (validateAccessToken w.clientId w.now (w.introspect t2) = none →
                    (handler w ⟨Method.POST, b⟩ kv).1 = invalidTokenResponse)
               ∧ ((handler w ⟨Method.POST, b⟩ kv).1.status = 200 →
                    (handler w ⟨Method.POST, b⟩ kv).1.tokenRefreshed = some true)))))
    ∧ (∀ (w : World) (kv : KV) (b : RequestBody) (sc : SheetConfigRaw)
         (hs rows : List JVal),
        ShapeOK b sc hs rows → w.mockMode = false →
        validateAccessToken w.clientId w.now (w.introspect b.accessToken) = none →
        (b.refreshToken = none ∨ b.refreshToken = some "") →
        (handler w ⟨Method.POST, b⟩ kv).1 = invalidTokenResponse) := by
  have hkvq : ∀ e, Event.isKvEv e = true → Event.isRefresh e = false := by
    intro e
    cases e <;> simp [Event.isKvEv, Event.isRefresh]
  have hsheetq : ∀ e, Event.isSheetCall e = true → Event.isRefresh e = false := by
    intro e
    cases e <;> simp [Event.isSheetCall, Event.isRefresh]
  have hintroq : ∀ t, Event.isRefresh (Event.introspectCall t) = false := by
    intro t
    rfl
  refine ⟨?_, ?_, ?_⟩
  · intro w req kv
    rcases handler_cases w req kv with ⟨htr, _, _⟩ | ⟨H, rows, heq⟩
    · rw [htr]
      simp
    · rw [heq, handlerWrap_tr]
      have h1 := attemptFirst_countP_refresh w H rows req.body.refreshToken
        req.body.accessToken kv []
      simpa using h1
  · intro w kv b sc hs rows rt hsh hmock hv hrt hrtne
    have hrun := handler_run w kv b sc hs rows hsh
    rw [hrt] at hrun
    have hrtb : rt != "" := by
      simp [hrtne]
    refine ⟨?_, ?_, ?_⟩
    · rw [hrun, handlerWrap_tr]
      cases hx : w.refreshExchange rt with
      | none =>
        rw [attemptFirst_refresh_fail w (JVal.jarr hs) rows rt b.accessToken kv []
            hmock hv hrtne hx]
        simp [List.countP_append, List.countP_cons, Event.isRefresh]
      | some t2 =>
        rw [attemptFirst_refresh_ok w (JVal.jarr hs) rows rt b.accessToken t2 kv []
            hmock hv hrtne hx]
        rw [attemptRetry_countP w (JVal.jarr hs) rows t2 kv _ Event.isRefresh
            hkvq hsheetq hintroq]
        simp [List.countP_append, List.countP_cons, Event.isRefresh]
    · intro hx
      rw [hrun]
      rw [attemptFirst_refresh_fail w (JVal.jarr hs) rows rt b.accessToken kv []
          hmock hv hrtne hx]
      simp [handlerWrap]
    · intro t2 hx
      refine ⟨?_, ?_, ?_⟩
      · rw [hrun, handlerWrap_tr]
        rw [attemptFirst_refresh_ok w (JVal.jarr hs) rows rt b.accessToken t2 kv []
            hmock hv hrtne hx]
        rw [attemptRetry_countP_intro w (JVal.jarr hs) rows t2 kv _ hmock]
        simp [List.countP_append, List.countP_cons, Event.isIntrospect]
      · intro hv2
        rw [hrun]
        rw [attemptFirst_refresh_ok w (JVal.jarr hs) rows rt b.accessToken t2 kv []
            hmock hv hrtne hx]
        rw [attemptRetry_invalid w (JVal.jarr hs) rows t2 kv _ hmock hv2]
        simp [handlerWrap]
      · rw [hrun]
        rw [attemptFirst_refresh_ok w (JVal.jarr hs) rows rt b.accessToken t2 kv []
            hmock hv hrtne hx]
        cases hv2 : validateAccessToken w.clientId w.now (w.introspect t2) with
        | none =>
          rw [attemptRetry_invalid w (JVal.jarr hs) rows t2 kv _ hmock hv2]
          intro h200
          simp [handlerWrap, invalidTokenResponse, errResponse] at h200
        | some ti =>
          rw [attemptRetry_valid w (JVal.jarr hs) rows t2 kv _ ti hmock hv2]
          cases ho : (syncAfterValidate w (JVal.jarr hs) rows ti true kv
              ([] ++ [Event.introspectCall b.accessToken] ++ [Event.refreshCall rt]
                ++ [Event.introspectCall t2])).1 with
          | ok resp =>
            rw [handlerWrap_ok _ resp ho]
            intro h200
            rcases syncAfter_ok_inv _ _ _ _ _ _ _ _ ho with ⟨h429, _⟩ | ⟨_, _, htok⟩
            · rw [h429] at h200
              simp [errResponse] at h200
            · exact htok
          | error m =>
            intro h200
            rcases handlerWrap_err_status _ m ho with h | h <;>
              · have hcon := h.symm.trans h200
                exact absurd hcon (by decide)
  · intro w kv b sc hs rows hsh hmock hv hdisj
    rw [handler_run w kv b sc hs rows hsh]
    rw [attemptFirst_invalid_norefresh w (JVal.jarr hs) rows b.refreshToken
        b.accessToken kv [] hmock hv hdisj]
    simp [handlerWrap]

end SheetsSync

namespace SheetsSync

theorem syncAfter_quota (w : World) (H : JVal) (rows : List JVal)
    (ti : TokenInfo) (bb : Bool) (kv : KV) (tr0 : Trace)
    (hg : kv.getFails = false) (hi : kv.incrFails = false)
    (he : kv.expireFails = false)
    (hlt : (kv.counters (rlKey ti.sub)).getD 0 < w.rateLimit)
    (h0i : tr0.countP Event.isIncr = 0)
    (h0s : tr0.countP Event.isSheetCall = 0) :
    (syncAfterValidate w H rows ti bb kv tr0).2.1.counters (rlKey ti.sub)
        = some ((kv.counters (rlKey ti.sub)).getD 0 + 1)
    ∧ (syncAfterValidate w H rows ti bb kv tr0).2.2.countP Event.isIncr = 1
    ∧ ∃ pre post,
        (syncAfterValidate w H rows ti bb kv tr0).2.2
          = pre ++ Event.kvIncr (rlKey ti.sub) :: post
        ∧ pre.countP Event.isSheetCall = 0
        ∧ pre.countP Event.isIncr = 0
        ∧ post.countP Event.isIncr = 0 := by
  obtain ⟨rest, htr, hkv2, hall, _, _⟩ := syncAfter_anatomy w H rows ti bb kv tr0
  obtain ⟨hcl1, hcl2, hcl3⟩ := checkRL_allowed w.rateLimit kv tr0 ti.sub hg hi he hlt
  have hrest0 : rest.countP Event.isIncr = 0 := by
    refine countP_zero_of_all rest Event.isSheetCall _ hall ?_
    intro e
    cases e <;> simp [Event.isSheetCall, Event.isIncr]
  have hrestS : rest.countP Event.isSheetCall ≥ 0 := Nat.zero_le _
  have hite : (if (kv.counters (rlKey ti.sub)).getD 0 = 0
      then [Event.kvExpire (rlKey ti.sub) RATE_WINDOW]
      else ([] : Trace)).countP Event.isIncr = 0 := by
    split <;> rfl
  refine ⟨?_, ?_, ?_⟩
  · rw [hkv2]
    exact hcl2
  · rw [htr, hcl3]
    simp [List.countP_append, List.countP_cons, Event.isIncr, h0i, hrest0, hite]
  · refine ⟨tr0 ++ [Event.kvGet (rlKey ti.sub)],
      (if (kv.counters (rlKey ti.sub)).getD 0 = 0
        then [Event.kvExpire (rlKey ti.sub) RATE_WINDOW]
        else ([] : Trace)) ++ rest, ?_, ?_, ?_, ?_⟩
    · rw [htr, hcl3]
      simp [List.append_assoc, List.cons_append]
    · simp [List.countP_append, List.countP_cons, Event.isSheetCall, h0s]
    · simp [List.countP_append, List.countP_cons, Event.isIncr, h0i]
    · simp [List.countP_append, hrest0, hite]

/-- C10: every request that passes token validation (directly or after a
successful refresh) and is under the threshold increments the per-subject
counter exactly once, before any spreadsheet call, and the increment stays
whatever the spreadsheet oracles later answer. -/
theorem c10_quota_consumed (w : World) (kv : KV) (b : RequestBody)
    (sc : SheetConfigRaw) (hs rows : List JVal) (ti : TokenInfo)
    (hsh : ShapeOK b sc hs rows) (hmock : w.mockMode = false)
    (hg : kv.getFails = false) (hi : kv.incrFails = false)
    (he : kv.expireFails = false)
    (hvalid :
      validateAccessToken w.clientId w.now (w.introspect b.accessToken) = some ti
      ∨ (validateAccessToken w.clientId w.now (w.introspect b.accessToken) = none
         ∧ ∃ rt t2, b.refreshToken = some rt ∧ rt ≠ ""
             ∧ w.refreshExchange rt = some t2
             ∧ validateAccessToken w.clientId w.now (w.introspect t2) = some ti))
    (hlt : (kv.counters (rlKey ti.sub)).getD 0 < w.rateLimit) :
    (handler w ⟨Method.POST, b⟩ kv).2.1.counters (rlKey ti.sub)
        = some ((kv.counters (rlKey ti.sub)).getD 0 + 1)
    ∧ (handler w ⟨Method.POST, b⟩ kv).2.2.countP Event.isIncr = 1
    ∧ ∃ pre post,
        (handler w ⟨Method.POST, b⟩ kv).2.2
          = pre ++ Event.kvIncr (rlKey ti.sub) :: post
        ∧ pre.countP Event.isSheetCall = 0
        ∧ pre.countP Event.isIncr = 0
        ∧ post.countP Event.isIncr = 0 := by
  have hrun := handler_run w kv b sc hs rows hsh
  rcases hvalid with hv | ⟨hv0, rt, t2, hrt, hrtne, hx, hv2⟩
  · have heq := attemptFirst_valid w (JVal.jarr hs) rows b.refreshToken
      b.accessToken kv [] ti hmock hv
    have hq := syncAfter_quota w (JVal.jarr hs) rows ti false kv
      ([] ++ [Event.introspectCall b.accessToken]) hg hi he hlt (by rfl) (by rfl)
    refine ⟨?_, ?_, ?_⟩
    · rw [hrun, handlerWrap_kv, heq]
      exact hq.1
    · rw [hrun, handlerWrap_tr, heq]
      exact hq.2.1
    · rw [hrun, handlerWrap_tr, heq]
      exact hq.2.2
  · rw [hrt] at hrun
    have heq1 := attemptFirst_refresh_ok w (JVal.jarr hs) rows rt b.accessToken t2
      kv [] hmock hv0 hrtne hx
    have heq2 := attemptRetry_valid w (JVal.jarr hs) rows t2 kv
      ([] ++ [Event.introspectCall b.accessToken] ++ [Event.refreshCall rt]) ti
      hmock hv2
    have hq := syncAfter_quota w (JVal.jarr hs) rows ti true kv
      ([] ++ [Event.introspectCall b.accessToken] ++ [Event.refreshCall rt]
        ++ [Event.introspectCall t2]) hg hi he hlt (by rfl) (by rfl)
    refine ⟨?_, ?_, ?_⟩
    · rw [hrun, handlerWrap_kv, heq1, heq2]
      exact hq.1
    · rw [hrun, handlerWrap_tr, heq1, heq2]
      exact hq.2.1
    · rw [hrun, handlerWrap_tr, heq1, heq2]
      exact hq.2.2

/-- Witness for C10: a fresh counter is read as 0 and ends at 1 even though
the request then creates a spreadsheet and appends. -/
theorem c10_quota_consumed_witness :
    kv0.getFails = false
    ∧ (kv0.counters (rlKey "user1")).getD 0 < baseWorld.rateLimit
    ∧ (handler baseWorld ⟨Method.POST, goodBody⟩ kv0).2.1.counters (rlKey "user1")
        = some 1
    ∧ (handler baseWorld ⟨Method.POST, goodBody⟩ kv0).2.2.countP Event.isIncr = 1 := by
  have h := c10_quota_consumed baseWorld kv0 goodBody
    { sheetName := JVal.jstr "MySheet", headers := JVal.jarr [JVal.jstr "Date"] }
    [JVal.jstr "Date"] [JVal.jarr [JVal.jstr "2024-01-01"]] goodTI
    ⟨by decide, rfl, rfl, rfl, rfl, by simp, by decide⟩
    rfl rfl rfl rfl (Or.inl (by decide)) (by decide)
  exact ⟨rfl, by decide, h.1, h.2.1⟩

end SheetsSync

namespace SheetsSync

/-- C9: getColumnLetter maps 0 (and every non-positive input) to the empty
string; a shape-valid request whose headers list is empty (with rows of
length 0) is not rejected by the validators, and every append it performs
uses the range "Sheet1!A:" with an empty column letter, as the concrete
run against the baseline world exhibits. -/
theorem c9_empty_headers :
    (getColumnLetter 0 = "" ∧ ∀ n : Int, n ≤ 0 → getColumnLetter n = "")
    ∧ (∀ (w : World) (kv : KV) (b : RequestBody) (sc : SheetConfigRaw)
         (rows : List JVal),
        ShapeOK b sc [] rows →
        ((handler w ⟨Method.POST, b⟩ kv).1.error ≠ some ErrKind.missing_fields
         ∧ (handler w ⟨Method.POST, b⟩ kv).1.error ≠ some ErrKind.invalid_schema
         ∧ (handler w ⟨Method.POST, b⟩ kv).2.2.all
             (fun e => match e with
               | Event.appendCall r => r = "Sheet1!A:"
               | _ => true) = true))
    ∧ Event.appendCall "Sheet1!A:"
        ∈ (handler baseWorld ⟨Method.POST, c9Body⟩ kv0).2.2 := by
  have h0 : getColumnLetter ((jlength (JVal.jarr ([] : List JVal))).getD 0) = "" := by
    have he : (jlength (JVal.jarr ([] : List JVal))).getD 0 = (0 : Int) := rfl
    rw [he]
    exact gcl_nonpos 0 le_rfl
  refine ⟨⟨gcl_nonpos 0 le_rfl, gcl_nonpos⟩, ?_, ?_⟩
  · intro w kv b sc rows hsh
    have hrun := handler_run w kv b sc [] rows hsh
    refine ⟨?_, ?_, ?_⟩
    · rw [hrun]
      cases ho : (attemptSyncFirst w (JVal.jarr []) rows b.refreshToken
          b.accessToken kv []).1 with
      | ok resp =>
        rw [handlerWrap_ok _ resp ho]
        rcases attemptFirst_ok_err w (JVal.jarr []) rows b.refreshToken
            b.accessToken kv [] resp ho with h | h | h <;> rw [h] <;> simp
      | error m =>
        rcases handlerWrap_err_kind _ m ho with h | h <;> rw [h] <;> simp
    · rw [hrun]
      cases ho : (attemptSyncFirst w (JVal.jarr []) rows b.refreshToken
          b.accessToken kv []).1 with
      | ok resp =>
        rw [handlerWrap_ok _ resp ho]
        rcases attemptFirst_ok_err w (JVal.jarr []) rows b.refreshToken
            b.accessToken kv [] resp ho with h | h | h <;> rw [h] <;> simp
      | error m =>
        rcases handlerWrap_err_kind _ m ho with h | h <;> rw [h] <;> simp
    · rw [hrun, handlerWrap_tr]
      have hall := attemptFirst_append_range w (JVal.jarr []) rows b.refreshToken
        b.accessToken kv [] (by rfl)
      refine all_imp _ _ _ hall ?_
      intro e
      cases e <;> simp [appendRangeP, h0]
  · have hsh9 : ShapeOK c9Body
        { sheetName := JVal.jstr "MySheet", headers := JVal.jarr [] }
        [] [JVal.jarr []] :=
      ⟨by decide, rfl, rfl, rfl, rfl, by simp, by decide⟩
    rw [handler_run baseWorld kv0 c9Body _ [] [JVal.jarr []] hsh9, handlerWrap_tr]
    have hb1 : c9Body.refreshToken = none := rfl
    have hb2 : c9Body.accessToken = "tokGood" := rfl
    rw [hb1, hb2]
    rw [attemptFirst_valid baseWorld (JVal.jarr []) [JVal.jarr []] none "tokGood"
        kv0 [] goodTI rfl (by decide)]
    unfold syncAfterValidate
    norm_num [checkRateLimit, kv0, baseWorld, rlKey, goodTI,
      findOrCreateSpreadsheet, appendData, h0]

end SheetsSync

namespace SheetsSync

/-- Witness for C2: with an invalid access token and refresh token
"refGood" the run makes exactly one exchange and two introspections. -/
theorem c2_refresh_flow_witness :
    validateAccessToken baseWorld.clientId baseWorld.now
        (baseWorld.introspect "tokBad") = none
    ∧ baseWorld.refreshExchange "refGood" = some "tokGood"
    ∧ (handler baseWorld ⟨Method.POST, c2Body⟩ kv0).2.2.countP Event.isRefresh = 1
    ∧ (handler baseWorld ⟨Method.POST, c2Body⟩ kv0).2.2.countP Event.isIntrospect
        = 2 := by
  have hmain := c2_refresh_flow.2.1 baseWorld kv0 c2Body
    { sheetName := JVal.jstr "MySheet", headers := JVal.jarr [JVal.jstr "Date"] }
    [JVal.jstr "Date"] [JVal.jarr [JVal.jstr "2024-01-01"]] "refGood"
    ⟨by decide, rfl, rfl, rfl, rfl, by simp, by decide⟩
    rfl (by decide) rfl (by decide)
  exact ⟨by decide, rfl, hmain.1, (hmain.2.2 "tokGood" rfl).1⟩

/-- Witness for C9: the empty-headers request is not rejected by the shape
validators and every append range in its trace is "Sheet1!A:". -/
theorem c9_empty_headers_witness :
    (handler baseWorld ⟨Method.POST, c9Body⟩ kv0).1.error
        ≠ some ErrKind.missing_fields
    ∧ (handler baseWorld ⟨Method.POST, c9Body⟩ kv0).1.error
        ≠ some ErrKind.invalid_schema
    ∧ (handler baseWorld ⟨Method.POST, c9Body⟩ kv0).2.2.all
        (fun e => match e with
          | Event.appendCall r => r = "Sheet1!A:"
          | _ => true) = true :=
  c9_empty_headers.2.1 baseWorld kv0 c9Body
    { sheetName := JVal.jstr "MySheet", headers := JVal.jarr [] }
    [JVal.jarr []]
    ⟨by decide, rfl, rfl, rfl, rfl, by simp, by decide⟩

end SheetsSync
